import Mathlib

/-
  Shallow embedding of the zotero-mcp rendering core
  (src/zotero_mcp/__init__.py): the item formatter `format_item`,
  the search renderer `search_items`, and the tool handlers
  `get_item_metadata` and `get_item_fulltext`.

  Parsed JSON responses from the Zotero API are modelled by `JVal`.
  Python exceptions are modelled by `Except String`: an `Except.error`
  value corresponds to an exception propagating out of the code under
  consideration.  Python dict access, truthiness, string `replace`,
  `strip`, `split`, slicing and `capitalize` are each modelled by an
  explicit executable definition below.
-/

set_option maxHeartbeats 1000000
set_option maxRecDepth 4000

/-- JSON-like values: the shape of the parsed Zotero API responses that
the renderers consume. -/
inductive JVal where
  | str : String → JVal
  | num : Int → JVal
  | arr : List JVal → JVal
  | obj : List (String × JVal) → JVal

mutual

/-- Decidable equality of JSON values (hand-written because `deriving`
does not handle the nested `List` occurrences). -/
def JVal.decEq : (a b : JVal) → Decidable (a = b)
  | .str a, .str b =>
    if h : a = b then .isTrue (by rw [h]) else .isFalse (by intro hh; cases hh; exact h rfl)
  | .num a, .num b =>
    if h : a = b then .isTrue (by rw [h]) else .isFalse (by intro hh; cases hh; exact h rfl)
  | .arr a, .arr b =>
    match JVal.decEqList a b with
    | .isTrue h => .isTrue (by rw [h])
    | .isFalse h => .isFalse (by intro hh; cases hh; exact h rfl)
  | .obj a, .obj b =>
    match JVal.decEqObj a b with
    | .isTrue h => .isTrue (by rw [h])
    | .isFalse h => .isFalse (by intro hh; cases hh; exact h rfl)
  | .str _, .num _ => .isFalse (fun h => by cases h)
  | .str _, .arr _ => .isFalse (fun h => by cases h)
  | .str _, .obj _ => .isFalse (fun h => by cases h)
  | .num _, .str _ => .isFalse (fun h => by cases h)
  | .num _, .arr _ => .isFalse (fun h => by cases h)
  | .num _, .obj _ => .isFalse (fun h => by cases h)
  | .arr _, .str _ => .isFalse (fun h => by cases h)
  | .arr _, .num _ => .isFalse (fun h => by cases h)
  | .arr _, .obj _ => .isFalse (fun h => by cases h)
  | .obj _, .str _ => .isFalse (fun h => by cases h)
  | .obj _, .num _ => .isFalse (fun h => by cases h)
  | .obj _, .arr _ => .isFalse (fun h => by cases h)

/-- Decidable equality of lists of JSON values. -/
def JVal.decEqList : (a b : List JVal) → Decidable (a = b)
  | [], [] => .isTrue rfl
  | [], _ :: _ => .isFalse (fun h => by cases h)
  | _ :: _, [] => .isFalse (fun h => by cases h)
  | a :: as, b :: bs =>
    match JVal.decEq a b, JVal.decEqList as bs with
    | .isTrue h1, .isTrue h2 => .isTrue (by rw [h1, h2])
    | .isFalse h1, _ => .isFalse (fun h => by cases h; exact h1 rfl)
    | _, .isFalse h2 => .isFalse (fun h => by cases h; exact h2 rfl)

/-- Decidable equality of string-keyed association lists of JSON values. -/
def JVal.decEqObj : (a b : List (String × JVal)) → Decidable (a = b)
  | [], [] => .isTrue rfl
  | [], _ :: _ => .isFalse (fun h => by cases h)
  | _ :: _, [] => .isFalse (fun h => by cases h)
  | (k1, v1) :: as, (k2, v2) :: bs =>
    if hk : k1 = k2 then
      match JVal.decEq v1 v2, JVal.decEqObj as bs with
      | .isTrue hv, .isTrue hr => .isTrue (by rw [hk, hv, hr])
      | .isFalse hv, _ => .isFalse (fun h => by cases h; exact hv rfl)
      | _, .isFalse hr => .isFalse (fun h => by cases h; exact hr rfl)
    else .isFalse (fun h => by cases h; exact hk rfl)

end

instance : DecidableEq JVal := JVal.decEq

/-- A Python dict with string keys, as an association list. -/
abbrev Dict := List (String × JVal)

/-- First-match lookup in a dict (Python `d[k]` / `d.get(k)` access). -/
def lookupKey (d : Dict) (k : String) : Option JVal :=
  match d with
  | [] => none
  | (k2, v) :: rest => if k2 = k then some v else lookupKey rest k

/-- Python truthiness of a JSON value: empty strings, zero and empty
containers are falsy. -/
def JVal.truthy : JVal → Bool
  | .str s => s ≠ ""
  | .num n => n ≠ 0
  | .arr l => !l.isEmpty
  | .obj l => !l.isEmpty

/-- Python `d.get(k, default)`. -/
def pyGetD (d : Dict) (k : String) (dflt : JVal) : JVal :=
  (lookupKey d k).getD dflt

/-- The walrus-assignment idiom `if x := d.get(k):` — the value when the
key is present and truthy, `none` otherwise. -/
def getTruthy (d : Dict) (k : String) : Option JVal :=
  match lookupKey d k with
  | some v => if v.truthy then some v else none
  | none => none

mutual

/-- Python `repr` of a JSON value (exact for strings and integers; for
containers, the element structure rendered in Python list/dict style). -/
def pyRepr : JVal → String
  | .str s => "\x27" ++ s ++ "\x27"
  | .num n => toString n
  | .arr l => "[" ++ pyReprList l ++ "]"
  | .obj l => "\x7b" ++ pyReprObj l ++ "\x7d"

/-- `repr` of the elements of a Python list, comma separated. -/
def pyReprList : List JVal → String
  | [] => ""
  | [v] => pyRepr v
  | v :: rest => pyRepr v ++ ", " ++ pyReprList rest

/-- `repr` of the entries of a Python dict, comma separated. -/
def pyReprObj : List (String × JVal) → String
  | [] => ""
  | [(k, v)] => "\x27" ++ k ++ "\x27: " ++ pyRepr v
  | (k, v) :: rest => "\x27" ++ k ++ "\x27: " ++ pyRepr v ++ ", " ++ pyReprObj rest

end

/-- Python `str(v)`, as used by f-string interpolation: strings pass
through unchanged, everything else renders as its `repr`. -/
def pyStr : JVal → String
  | .str s => s
  | v => pyRepr v

/-- Characters Python treats as whitespace for `strip`/`split`. -/
def wsChar (c : Char) : Bool := c.isWhitespace

/-- `strip` on a character list: drop whitespace from both ends. -/
def stripL (l : List Char) : List Char :=
  ((l.dropWhile wsChar).reverse.dropWhile wsChar).reverse

/-- Python `s.strip()`. -/
def pyStrip (s : String) : String := ⟨stripL s.data⟩

/-- Python `len(s)` for a string: the number of code points. -/
def pyLen (s : String) : Nat := s.data.length

/-- Python `s[:n]`. -/
def pySlice (s : String) (n : Nat) : String := ⟨s.data.take n⟩

/-- One left-to-right scan of Python `str.replace`: at each position,
if the (nonempty) pattern matches, emit the replacement and then skip
the remaining `pat.length - 1` characters of the match (tracked by the
`skip` counter so the recursion is structural); otherwise keep the
character and advance by one. -/
def replCA (pat rep : List Char) : List Char → Nat → List Char
  | [], _ => []
  | _ :: cs, k + 1 => replCA pat rep cs k
  | c :: cs, 0 =>
    if pat.isPrefixOf (c :: cs) then rep ++ replCA pat rep cs (pat.length - 1)
    else c :: replCA pat rep cs 0

/-- All non-overlapping left-to-right replacements of `pat` by `rep`. -/
def replC (pat rep l : List Char) : List Char := replCA pat rep l 0

/-- Python `s.replace(pat, rep)` (all non-overlapping occurrences,
left to right). -/
def pyReplace (s pat rep : String) : String := ⟨replC pat.data rep.data s.data⟩

/-- Does `pat` occur as a contiguous substring (Python `pat in s`)? -/
def containsL (pat : List Char) : List Char → Bool
  | [] => pat.isEmpty
  | c :: cs => pat.isPrefixOf (c :: cs) || containsL pat cs

/-- Python `pat in s` on strings. -/
def pyInStr (pat s : String) : Bool := containsL pat.data s.data

/-- Python `s.capitalize()`: first character uppercased and — notably —
every remaining character lowercased (ASCII case mapping). -/
def pyCapitalize (s : String) : String :=
  match s.data with
  | [] => ""
  | c :: cs => ⟨c.toUpper :: cs.map Char.toLower⟩

/-- Splitting a character list on a separator character, Python
`s.split(sep)` style: `n` separators yield `n + 1` pieces, empty pieces
kept. -/
def splitChAux (sep : Char) (acc : List Char) : List Char → List (List Char)
  | [] => [acc.reverse]
  | c :: cs =>
    if c = sep then acc.reverse :: splitChAux sep [] cs
    else splitChAux sep (c :: acc) cs

/-- Python `s.split("\n")`. -/
def pySplitNl (s : String) : List String :=
  (splitChAux '\n' [] s.data).map (fun l => ⟨l⟩)

/-- Python whitespace `s.split()`: runs of whitespace separate words, no
empty words are produced. -/
def splitWsAux : List Char → List Char → List (List Char)
  | cur, [] => if cur.isEmpty then [] else [cur.reverse]
  | cur, c :: cs =>
    if wsChar c then
      if cur.isEmpty then splitWsAux [] cs
      else cur.reverse :: splitWsAux [] cs
    else splitWsAux (c :: cur) cs

/-- Python `s.split()` (split on whitespace, discarding empties). -/
def pySplitWs (s : String) : List String :=
  (splitWsAux [] s.data).map (fun l => ⟨l⟩)

/-- `item[k]` on a JSON value: KeyError when the key is missing,
TypeError when the value is not a dict. -/
def pyIndex (item : JVal) (k : String) : Except String JVal :=
  match item with
  | .obj d =>
    match lookupKey d k with
    | some v => Except.ok v
    | none => Except.error ("KeyError: " ++ k)
  | _ => Except.error "TypeError: value is not subscriptable by string"

/-- Require a dict (a `.get` access on anything else raises). -/
def asObj (v : JVal) : Except String Dict :=
  match v with
  | .obj d => Except.ok d
  | _ => Except.error "AttributeError: value has no attribute get"

/-
  ## The item formatter `format_item`

  Transliterated from `format_item` in src/zotero_mcp/__init__.py.
  The function builds a list `formatted` of markdown fragments and
  joins them with a newline; `format_item_lines` is that list and
  `format_item` the joined string.  An `Except.error` result models a
  Python exception escaping `format_item`.
-/

/-- Python iteration over `data.get(k, [])`-style values as done by the
`for creator in ...` / `for tag in ...` loops of `format_item`: lists
iterate their elements; a nonempty string or dict would iterate
characters/keys on which the loop body's `creator.get` / `tag["tag"]`
raises at once; empty strings and dicts iterate zero times; integers
are not iterable. -/
def pyIterList : JVal → Except String (List JVal)
  | .arr l => Except.ok l
  | .str s => if s = "" then Except.ok [] else Except.error "AttributeError: str element in loop"
  | .obj l => if l.isEmpty then Except.ok [] else Except.error "AttributeError: dict key element in loop"
  | .num _ => Except.error "TypeError: value is not iterable"

/-- Python `"; ".join(l)`: every element must be a string. -/
def pyJoinStrs (sep : String) (l : List JVal) : Except String String := do
  let ss ← l.mapM (fun v =>
    match v with
    | JVal.str s => Except.ok s
    | _ => Except.error "TypeError: sequence item: expected str instance")
  Except.ok (String.intercalate sep ss)

/-- The first four `formatted` entries of the regular branch:
title (default Untitled), key, type, date (default No date). -/
def basicLines (data : Dict) (item_key item_type : JVal) : List String :=
  [ "## " ++ pyStr (pyGetD data "title" (JVal.str "Untitled")),
    "Item Key: `" ++ pyStr item_key ++ "`",
    "Type: " ++ pyStr item_type,
    "Date: " ++ pyStr (pyGetD data "date" (JVal.str "No date")) ]

/-- One pass of the creators loop body: the role (default
"contributor") and the name value it contributes.  A name built from
`firstName`/`lastName` is an f-string result; a bare `name` field is
passed through as the raw value; with neither, the name stays the empty
string and the creator is skipped by the truthiness test. -/
def creatorRoleName (c : JVal) : Except String (JVal × JVal) :=
  match c with
  | .obj cd =>
    let role := pyGetD cd "creatorType" (JVal.str "contributor")
    match lookupKey cd "firstName", lookupKey cd "lastName" with
    | some f, some l => Except.ok (role, JVal.str (pyStr l ++ ", " ++ pyStr f))
    | _, _ =>
      match lookupKey cd "name" with
      | some n => Except.ok (role, n)
      | none => Except.ok (role, JVal.str "")
  | _ => Except.error "AttributeError: creator is not a mapping"

/-- Insertion into the `creators_by_role` dict: append the name to the
existing entry for the role, or add a new `role -> [name]` entry at the
end (Python dict insertion order). -/
def addName (role n : JVal) : List (JVal × List JVal) → List (JVal × List JVal)
  | [] => [(role, [n])]
  | (r, ns) :: rest =>
    if r = role then (r, ns ++ [n]) :: rest
    else (r, ns) :: addName role n rest

/-- The creators loop: fold the creators into the role-keyed
insertion-ordered mapping, skipping creators whose name is falsy. -/
def creatorsByRole : List JVal → List (JVal × List JVal) → Except String (List (JVal × List JVal))
  | [], acc => Except.ok acc
  | c :: cs, acc => do
    let rn ← creatorRoleName c
    if rn.2.truthy then creatorsByRole cs (addName rn.1 rn.2 acc)
    else creatorsByRole cs acc

/-- One role line: `role.capitalize()` plus a plural "s" for more than
one name, then the names joined with "; ".  Raises when the role is not
a string (no `capitalize`) or a name is not a string (join). -/
def roleLine (role : JVal) (names : List JVal) : Except String String :=
  match role with
  | .str r => do
    let joined ← pyJoinStrs "; " names
    Except.ok (pyCapitalize r ++ (if names.length > 1 then "s" else "") ++ ": " ++ joined)
  | _ => Except.error "AttributeError: role has no attribute capitalize"

/-- The creator lines of the regular branch. -/
def creatorBlock (data : Dict) : Except String (List String) := do
  let cs ← pyIterList (pyGetD data "creators" (JVal.arr []))
  let byRole ← creatorsByRole cs []
  byRole.mapM (fun rn => roleLine rn.1 rn.2)

/-- The publication line, gated on a truthy `publicationTitle`. -/
def pubLines (data : Dict) : List String :=
  match getTruthy data "publicationTitle" with
  | some p => ["Publication: " ++ pyStr p]
  | none => []

/-- The volume line, gated on a truthy `volume` only; a truthy `issue`
and a truthy `pages` are appended inline, comma-separated. -/
def volLines (data : Dict) : List String :=
  match getTruthy data "volume" with
  | some v =>
    let vi := "Volume: " ++ pyStr v
    let vi := match getTruthy data "issue" with
      | some i => vi ++ ", Issue: " ++ pyStr i
      | none => vi
    let vi := match getTruthy data "pages" with
      | some p => vi ++ ", Pages: " ++ pyStr p
      | none => vi
    [vi]
  | none => []

/-- The abstract section, gated on a truthy `abstractNote`; the
abstract is included in full. -/
def absLines (data : Dict) : List String :=
  match getTruthy data "abstractNote" with
  | some a => ["\n### Abstract\n" ++ pyStr a]
  | none => []

/-- The tag list as inline code spans: `tag["tag"]` for each entry. -/
def tagStrs (tags : List JVal) : Except String (List String) :=
  tags.mapM (fun t => do
    let v ← pyIndex t "tag"
    Except.ok ("`" ++ pyStr v ++ "`"))

/-- The tags section of `format_item` (both branches share this code):
gated on truthy `tags`, every tag rendered, joined with ", ". -/
def tagBlock (data : Dict) : Except String (List String) :=
  match getTruthy data "tags" with
  | some tv => do
    let ts ← pyIterList tv
    let tl ← tagStrs ts
    Except.ok ["\n### Tags\n" ++ String.intercalate ", " tl]
  | none => Except.ok []

/-- The identifiers section: URL, DOI, ISBN, ISSN in that fixed order,
each gated on truthiness; the section appears only if at least one is
present. -/
def identLines (data : Dict) : List String :=
  let ids :=
    (match getTruthy data "url" with
     | some u => ["URL: " ++ pyStr u]
     | none => []) ++
    (match getTruthy data "DOI" with
     | some v => ["DOI: " ++ pyStr v]
     | none => []) ++
    (match getTruthy data "ISBN" with
     | some v => ["ISBN: " ++ pyStr v]
     | none => []) ++
    (match getTruthy data "ISSN" with
     | some v => ["ISSN: " ++ pyStr v]
     | none => [])
  if ids.isEmpty then [] else ["\n### Identifiers\n" ++ String.intercalate "\n" ids]

/-- The child-count section: `item.get("meta", dict()).get("numChildren", 0)`,
shown when truthy. -/
def childLines (itemD : Dict) : Except String (List String) := do
  let md ← asObj (pyGetD itemD "meta" (JVal.obj []))
  let notes := pyGetD md "numChildren" (JVal.num 0)
  if notes.truthy then
    Except.ok ["\n### Additional Information\nNumber of notes/attachments: " ++ pyStr notes]
  else
    Except.ok []

/-- The fixed substitution chain applied to note HTML: paragraph-open
tags removed, paragraph-close and line-break tags to newline, bold tags
to `**`, italic tags to `*`, in that order. -/
def convert_note (s : String) : String :=
  let s1 := pyReplace s "<p>" ""
  let s2 := pyReplace s1 "</p>" "\n"
  let s3 := pyReplace s2 "<br>" "\n"
  let s4 := pyReplace s3 "<strong>" "**"
  let s5 := pyReplace s4 "</strong>" "**"
  let s6 := pyReplace s5 "<em>" "*"
  pyReplace s6 "</em>" "*"

/-- The note branch of `format_item`: header, key, optional parent,
optional last-modified date, optional tags, then the converted note
content. -/
def noteLines (item_key : JVal) (data : Dict) : Except String (List String) := do
  let ns ← (match pyGetD data "note" (JVal.str "") with
    | JVal.str s => Except.ok s
    | _ => Except.error "AttributeError: note value has no attribute replace")
  let note_content := convert_note ns
  let p := match getTruthy data "parentItem" with
    | some v => ["Parent Item: `" ++ pyStr v ++ "`"]
    | none => []
  let d := match getTruthy data "dateModified" with
    | some v => ["Last Modified: " ++ pyStr v]
    | none => []
  let tg ← tagBlock data
  Except.ok (["## 📝 Note", "Item Key: `" ++ pyStr item_key ++ "`"] ++ p ++ d ++ tg
    ++ ["\n### Note Content\n" ++ note_content])

/-- The `formatted` list built by `format_item`. -/
def format_item_lines (item : JVal) : Except String (List String) := do
  let dataV ← pyIndex item "data"
  let item_key ← pyIndex item "key"
  let data ← asObj dataV
  let item_type := pyGetD data "itemType" (JVal.str "unknown")
  if item_type = JVal.str "note" then
    noteLines item_key data
  else do
    let cl ← creatorBlock data
    let tb ← tagBlock data
    let itemD ← asObj item
    let ch ← childLines itemD
    Except.ok (basicLines data item_key item_type ++ cl ++ pubLines data ++ volLines data
      ++ absLines data ++ tb ++ identLines data ++ ch)

/-- `format_item`: the fragments joined with a newline. -/
def format_item (item : JVal) : Except String String :=
  (format_item_lines item).map (String.intercalate "\n")

/-
  ## The search renderer `search_items`

  Transliterated from `search_items` in src/zotero_mcp/__init__.py.
  The collaborator result of `zot.items()` is a parameter: `Except.ok`
  a list of records, or `Except.error` for a raised exception.  The
  handler performs its collaborator call and all rendering outside any
  try/except, so errors propagate (hence the `Except String String`
  result type, in contrast to the other two handlers).
-/

/-- The shared 150-character truncation of `search_items` (used for
note previews and abstracts): strings longer than 150 characters are
cut to their first 147 characters plus an ellipsis. -/
def truncate150 (s : String) : String :=
  if 150 < pyLen s then pySlice s 147 ++ "..." else s

/-- Python `l.insert(n, x)`. -/
def pyInsert (n : Nat) (x : α) (l : List α) : List α :=
  l.take n ++ x :: l.drop n

/-- The code-side title of a note entry in search results: first line
of the stripped converted content, itself stripped; verbatim if at most
50 characters, else the first 5 words plus an ellipsis; the literal
"Note" when nothing remains. -/
def note_title_of (note_content : String) : String :=
  let title_preview :=
    if note_content ≠ "" then
      let first_line := pyStrip (List.headD (pySplitNl (pyStrip note_content)) "")
      if first_line ≠ "" then
        if pyLen first_line ≤ 50 then first_line
        else String.intercalate " " ((pySplitWs first_line).take 5) ++ "..."
      else ""
    else ""
  if title_preview ≠ "" then title_preview else "Note"

/-- The search-result tag line (both entry kinds share this code):
gated on truthy `tags`, only the first 5 tags rendered, joined with a
single space, a literal "..." appended when more than 5 exist. -/
def searchTagBlock (data : Dict) : Except String (List String) :=
  match getTruthy data "tags" with
  | some tv => do
    let ts ← pyIterList tv
    let tl ← tagStrs (ts.take 5)
    let tl := if 5 < ts.length then tl ++ ["..."] else tl
    Except.ok ["\n**Tags**: " ++ String.intercalate " " tl]
  | none => Except.ok []

/-- A note entry of the search results (0-based index `i`, rendered
1-based). -/
def search_note_entry (i : Nat) (item_key : JVal) (data : Dict) : Except String (List String) := do
  let ns ← (match pyGetD data "note" (JVal.str "") with
    | JVal.str s => Except.ok s
    | _ => Except.error "AttributeError: note value has no attribute replace")
  let note_content := convert_note ns
  let note_title := note_title_of note_content
  let preview := truncate150 (pyStrip note_content)
  let base := [ "## " ++ toString (i + 1) ++ ". 📝 " ++ note_title,
                "**Type**: Note | **Key**: `" ++ pyStr item_key ++ "`",
                "\n" ++ preview ]
  let entry := match getTruthy data "parentItem" with
    | some v => pyInsert 2 ("**Parent Item**: `" ++ pyStr v ++ "`") base
    | none => base
  let tg ← searchTagBlock data
  Except.ok (entry ++ tg)

/-- One pass of the search-mode creators loop: names contributed by a
creator.  Non-dict creators are probed with Python `in`, which tests
substring membership on strings and element membership on lists, and
raises on integers; an indexing that would follow such a hit raises. -/
def searchCreatorNames (c : JVal) : Except String (List JVal) :=
  match c with
  | .obj cd =>
    match lookupKey cd "firstName", lookupKey cd "lastName" with
    | some f, some l => Except.ok [JVal.str (pyStr l ++ ", " ++ pyStr f)]
    | _, _ =>
      match lookupKey cd "name" with
      | some n => Except.ok [n]
      | none => Except.ok []
  | .str s =>
    if pyInStr "firstName" s ∧ pyInStr "lastName" s then
      Except.error "TypeError: string indices must be integers"
    else if pyInStr "name" s then
      Except.error "TypeError: string indices must be integers"
    else Except.ok []
  | .arr l =>
    if JVal.str "firstName" ∈ l ∧ JVal.str "lastName" ∈ l then
      Except.error "TypeError: list indices must be integers"
    else if JVal.str "name" ∈ l then
      Except.error "TypeError: list indices must be integers"
    else Except.ok []
  | .num _ => Except.error "TypeError: argument is not iterable"

/-- Python slicing/len of the `creators` value in search mode:
`data.get("creators", [])[:3]` slices lists and strings (strings
iterate as 1-character strings) and raises on dicts and integers. -/
def searchCreatorsSeq : JVal → Except String (List JVal)
  | .arr l => Except.ok l
  | .str s => Except.ok (s.data.map (fun c => JVal.str ⟨[c]⟩))
  | .obj _ => Except.error "TypeError: unhashable type slice"
  | .num _ => Except.error "TypeError: value is not subscriptable"

/-- The source line of a regular search entry: `publicationTitle`, else
`In: bookTitle`, else `publisher`, else omitted. -/
def sourceLines (data : Dict) : List String :=
  match getTruthy data "publicationTitle" with
  | some p => ["**Source**: " ++ pyStr p]
  | none =>
    match getTruthy data "bookTitle" with
    | some b => ["**Source**: In: " ++ pyStr b]
    | none =>
      match getTruthy data "publisher" with
      | some p => ["**Source**: " ++ pyStr p]
      | none => []

/-- The abstract fragment of a regular search entry:
`data.get("abstractNote", "")`, truncated at 150 characters, appended
when truthy.  Non-string values follow Python `len`/slicing: a long
list or dict raises at the slice/concatenation, a number raises at
`len`. -/
def searchAbsLines (data : Dict) : Except String (List String) :=
  match pyGetD data "abstractNote" (JVal.str "") with
  | JVal.str s =>
    let s2 := truncate150 s
    Except.ok (if s2 ≠ "" then ["\n" ++ s2] else [])
  | JVal.num _ => Except.error "TypeError: object of type int has no len"
  | JVal.arr l =>
    if 150 < l.length then Except.error "TypeError: can only concatenate list to list"
    else Except.ok (if l.isEmpty then [] else ["\n" ++ pyStr (JVal.arr l)])
  | JVal.obj l =>
    if 150 < l.length then Except.error "TypeError: unhashable type slice"
    else Except.ok (if l.isEmpty then [] else ["\n" ++ pyStr (JVal.obj l)])

/-- A regular (non-note) entry of the search results. -/
def search_regular_entry (i : Nat) (item_key item_type : JVal) (data : Dict) :
    Except String (List String) := do
  let title := pyStr (pyGetD data "title" (JVal.str "Untitled"))
  let date := pyGetD data "date" (JVal.str "")
  let csAll ← searchCreatorsSeq (pyGetD data "creators" (JVal.arr []))
  let cnss ← (csAll.take 3).mapM searchCreatorNames
  let creators := cnss.flatten ++ (if 3 < csAll.length then [JVal.str "et al."] else [])
  let creator_str ← (if creators.isEmpty then Except.ok "No authors"
    else pyJoinStrs "; " creators)
  let absL ← searchAbsLines data
  let tg ← searchTagBlock data
  let base := [ "## " ++ toString (i + 1) ++ ". " ++ title,
                "**Type**: " ++ pyStr item_type ++ " | **Date**: " ++ pyStr date
                  ++ " | **Key**: `" ++ pyStr item_key ++ "`",
                "**Authors**: " ++ creator_str ]
  Except.ok (base ++ sourceLines data ++ absL ++ tg)

/-- One search-result entry (the body of the `for i, item in
enumerate(results)` loop), joined with newlines. -/
def search_entry (i : Nat) (item : JVal) : Except String String := do
  let dataV ← pyIndex item "data"
  let itemD ← asObj item
  let item_key := pyGetD itemD "key" (JVal.str "")
  let data ← asObj dataV
  let item_type := pyGetD data "itemType" (JVal.str "unknown")
  if item_type = JVal.str "note" then
    (search_note_entry i item_key data).map (String.intercalate "\n")
  else
    (search_regular_entry i item_key item_type data).map (String.intercalate "\n")

/-- Truthiness of the optional `tag` argument (`if tag:`). -/
def tagTruthy : Option String → Bool
  | none => false
  | some t => t ≠ ""

/-- The `search_items` tool handler.  `qmode` and `limit` only shape
the query passed to the collaborator; `results` is the collaborator's
answer to that query (or its raised exception).  There is no
try/except in this handler: a collaborator or rendering failure
escapes as `Except.error`. -/
def search_items (query : String) (qmode : Option String) (tag : Option String)
    (limit : Option Int) (results : Except String (List JVal)) : Except String String := do
  let _ := qmode
  let _ := limit
  let rs ← results
  if rs.isEmpty then
    Except.ok "No items found matching your query."
  else do
    let header := [
      "# Search Results for: \x27" ++ query ++ "\x27",
      "Found " ++ toString rs.length ++ " items."
        ++ (if tagTruthy tag then " Using tag filter: " ++ (tag.getD "") else ""),
      "Use item keys with zotero_item_metadata or zotero_item_fulltext for more details.\n" ]
    let entries ← rs.enum.mapM (fun p => search_entry p.1 p.2)
    Except.ok (String.intercalate "\n\n" (header ++ entries))

/-
  ## The other two tool handlers

  `get_item_metadata` and `get_item_fulltext` wrap their collaborator
  calls and rendering in try/except and stringify any failure, so they
  are total (plain `String` results).  The collaborator calls
  (`zot.item`, `get_attachment_details`, `zot.fulltext_item`) are
  parameters, each an `Except` modelling a possible raised exception.
-/

/-- The attachment descriptor resolved by the external collaborator
`get_attachment_details` (zotero_mcp/client.py). -/
structure AttachmentDetails where
  key : String
  content_type : String

/-- The `zotero_item_metadata` tool handler. -/
def get_item_metadata (item_key : String) (itemRes : Except String JVal) : String :=
  match (do
    let item ← itemRes
    if !item.truthy then
      Except.ok ("No item found with key: " ++ item_key)
    else
      format_item item : Except String String) with
  | Except.ok s => s
  | Except.error e => "Error retrieving item metadata: " ++ e

/-- Python `"content" in v` (dict key / substring / list membership;
raises on numbers). -/
def pyInJ (k : String) (v : JVal) : Except String Bool :=
  match v with
  | .obj d => Except.ok (lookupKey d k).isSome
  | .str s => Except.ok (pyInStr k s)
  | .arr l => Except.ok (decide (JVal.str k ∈ l))
  | .num _ => Except.error "TypeError: argument of type int is not iterable"

/-- The `zotero_item_fulltext` tool handler. -/
def get_item_fulltext (item_key : String) (itemRes : Except String JVal)
    (attachmentRes : Except String (Option AttachmentDetails))
    (fulltextRes : Except String JVal) : String :=
  match (do
    let item ← itemRes
    if !item.truthy then
      Except.ok ("No item found with key: " ++ item_key)
    else do
      let attachment ← attachmentRes
      let header ← format_item item
      match attachment with
      | some att => do
        let info := "\n## Attachment Information\n- **Key**: `" ++ att.key
          ++ "`\n- **Type**: " ++ att.content_type
        let ftd ← fulltextRes
        let hasContent ← (if ftd.truthy then pyInJ "content" ftd else Except.ok false)
        if hasContent then do
          let textV ← pyIndex ftd "content"
          let item_text ← (match textV with
            | JVal.str s => Except.ok s
            | _ => Except.error "AttributeError: content value has no attribute split")
          let word_count := (pySplitWs item_text).length
          let info := info ++ "\n- **Word Count**: ~" ++ toString word_count
          Except.ok (header ++ info ++ "\n\n## Document Content\n\n" ++ item_text)
        else
          Except.ok (header ++ info
            ++ "\n\n## Document Content\n\n[⚠️ Attachment is available but text extraction is not possible. The document may be scanned as images or have other restrictions that prevent text extraction.]")
      | none =>
        Except.ok (header
          ++ "\n\n## Attachment Information\n[❌ No suitable attachment found for full text extraction. This item may not have any attached files or they may not be in a supported format.]")
    : Except String String) with
  | Except.ok s => s
  | Except.error e => "Error retrieving item full text: " ++ e

/-
  ## Auxiliary definitions for the specification statements

  `mkItem` builds an item object of the usual shape; the `spec…` /
  `claim…` definitions are written from the words of the specification
  (or of an amended claim) to be compared against the code-side
  definitions above.
-/

/-- An item object with `key`, `data` and `meta` entries. -/
def mkItem (key : JVal) (d : Dict) (meta : JVal) : JVal :=
  JVal.obj [("key", key), ("data", JVal.obj d), ("meta", meta)]

/-- A Zotero tag list holding the given tag strings. -/
def mkTags (ts : List String) : JVal :=
  JVal.arr (ts.map (fun t => JVal.obj [("tag", JVal.str t)]))

/-- No occurrence of any of the seven substitution patterns of the
note HTML-to-markdown conversion. -/
def noHtmlTags (s : String) : Bool :=
  !(pyInStr "<p>" s || pyInStr "</p>" s || pyInStr "<br>" s ||
    pyInStr "<strong>" s || pyInStr "</strong>" s ||
    pyInStr "<em>" s || pyInStr "</em>" s)

/-- Modelled from the amended claim C1: the volume line as a function
of the (truthy) volume, issue and pages values — a single line gated
only on the volume, with issue and pages appended comma-separated when
present. -/
def specVolLines : Option JVal → Option JVal → Option JVal → List String
  | none, _, _ => []
  | some v, iOpt, pOpt =>
    ["Volume: " ++ pyStr v
      ++ (match iOpt with | some i => ", Issue: " ++ pyStr i | none => "")
      ++ (match pOpt with | some p => ", Pages: " ++ pyStr p | none => "")]

/-- Modelled from claim C9 as stated: take the first line of the
converted-and-trimmed note content; use it verbatim when it has at most
50 characters, else its first 5 whitespace-separated words joined by
spaces plus an ellipsis; the literal "Note" when the note has no
content. -/
def claimNoteTitle (content : String) : String :=
  if content = "" then "Note"
  else
    let first_line := List.headD (pySplitNl (pyStrip content)) ""
    if pyLen first_line ≤ 50 then first_line
    else String.intercalate " " ((pySplitWs first_line).take 5) ++ "..."

/-- Modelled from the amended claim C9: as stated, except that the
first line is additionally trimmed of surrounding whitespace before
the length test and use, and a whitespace-only note (empty trimmed
first line) also falls back to the literal "Note". -/
def amendedNoteTitle (content : String) : String :=
  if content = "" then "Note"
  else
    let first_line := pyStrip (List.headD (pySplitNl (pyStrip content)) "")
    if first_line = "" then "Note"
    else if pyLen first_line ≤ 50 then first_line
    else String.intercalate " " ((pySplitWs first_line).take 5) ++ "..."

/-- The role a creator is grouped under (claim C6: the `creatorType`,
defaulting to "contributor"). -/
def specRole (c : JVal) : JVal :=
  match c with
  | JVal.obj cd => pyGetD cd "creatorType" (JVal.str "contributor")
  | _ => JVal.str "contributor"

/-- The rendered name of a creator (claim C6: `LastName, FirstName`
when both parts are present, else the bare `name` field). -/
def specName (c : JVal) : String :=
  match c with
  | JVal.obj cd =>
    (match lookupKey cd "firstName", lookupKey cd "lastName" with
     | some f, some l => pyStr l ++ ", " ++ pyStr f
     | _, _ =>
       match lookupKey cd "name" with
       | some n => pyStr n
       | none => "")
  | _ => ""

/-- Modelled from claim C6: group the creators by role in first-seen
order — `ks` collects the roles already emitted; each new role takes
all names of that role, in creator order. -/
def specGroupEx (ks : List JVal) : List JVal → List (JVal × List String)
  | [] => []
  | c :: cs =>
    let r := specRole c
    if r ∈ ks then specGroupEx ks cs
    else (r, ((c :: cs).filter (fun x => specRole x = r)).map specName)
      :: specGroupEx (r :: ks) cs

/-- Modelled from the amended claim C6: one line per role in first-seen
order; the label is the role with its first letter uppercased and the
rest lowercased, plus a plural "s" when more than one creator shares
the role; names joined with "; ". -/
def specCreatorLines (cs : List JVal) : List String :=
  (specGroupEx [] cs).map (fun rn =>
    pyCapitalize (pyStr rn.1) ++ (if 1 < rn.2.length then "s" else "") ++ ": "
      ++ String.intercalate "; " rn.2)

/-- A creator covered by claim C6: a dict whose `creatorType`, if
present, is a string, and which has either both `firstName` and
`lastName` keys or a nonempty string `name`. -/
def goodCreator : JVal → Bool
  | JVal.obj cd =>
    (match lookupKey cd "creatorType" with
     | none => true
     | some (JVal.str _) => true
     | some _ => false) &&
    (match lookupKey cd "firstName", lookupKey cd "lastName" with
     | some _, some _ => true
     | _, _ =>
       match lookupKey cd "name" with
       | some (JVal.str s) => s ≠ ""
       | _ => false)
  | _ => false

/-- A well-formed tag entry per §3: a dict with a string `tag` field. -/
def wfTag : JVal → Bool
  | JVal.obj td =>
    match lookupKey td "tag" with
    | some (JVal.str _) => true
    | _ => false
  | _ => false

/-- A well-formed creator per §3: a dict whose `creatorType` and
`name` fields, when present, are strings. -/
def wfCreator : JVal → Bool
  | JVal.obj cd =>
    (match lookupKey cd "creatorType" with
     | none => true
     | some (JVal.str _) => true
     | some _ => false) &&
    (match lookupKey cd "name" with
     | none => true
     | some (JVal.str _) => true
     | some _ => false)
  | _ => false

/-- A well-formed `data` dict per the §3 optionality rules: `creators`
(when present) a sequence of well-formed creator dicts, `tags` (when
present) a sequence of `tag`-string dicts, and the `note` HTML field
(when present) a string. -/
def wfData (d : Dict) : Bool :=
  (match lookupKey d "creators" with
   | none => true
   | some (JVal.arr l) => l.all wfCreator
   | some _ => false) &&
  (match lookupKey d "tags" with
   | none => true
   | some (JVal.arr l) => l.all wfTag
   | some _ => false) &&
  (match lookupKey d "note" with
   | none => true
   | some (JVal.str _) => true
   | some _ => false)

/-- A well-formed BibliographicRecord per §3: a dict with `key`
present and `data` a well-formed dict; the `meta` dict, when present,
carries an integer `numChildren` when that field is present. -/
def wellFormed (item : JVal) : Bool :=
  match item with
  | JVal.obj itemD =>
    (lookupKey itemD "key").isSome &&
    (match lookupKey itemD "data" with
     | some (JVal.obj d) => wfData d
     | _ => false) &&
    (match lookupKey itemD "meta" with
     | none => true
     | some (JVal.obj md) =>
       (match lookupKey md "numChildren" with
        | none => true
        | some (JVal.num _) => true
        | some _ => false)
     | some _ => false)
  | _ => false

/-- The optional fields whose sections both renderers gate on
truthiness (claim C10). -/
def gatedFields : List String :=
  ["publicationTitle", "volume", "abstractNote", "tags", "url", "DOI",
   "ISBN", "ISSN", "parentItem", "dateModified", "bookTitle",
   "publisher", "note"]

/-- The empty value of a gated field: the empty list for `tags`, the
empty string otherwise. -/
def emptyVal (k : String) : JVal :=
  if k = "tags" then JVal.arr [] else JVal.str ""

/-- The record with every occurrence of field `k` removed. -/
def removeF : Dict → String → Dict
  | [], _ => []
  | (k0, v) :: rest, k =>
    if k0 = k then removeF rest k else (k0, v) :: removeF rest k

/-- A 151-character abstract (for exercising the 150-character
truncation). -/
def longAbstract : String :=
  "aaaaaaaaaaaaaaaaaaaaaaaaaaaaaaaaaaaaaaaaaaaaaaaaaaaaaaaaaaaaaaaaaaaaaaaaaaaaaaaaaaaaaaaaaaaaaaaaaaaaaaaaaaaaaaaaaaaaaaaaaaaaaaaaaaaaaaaaaaaaaaaaaaaaaaa"

/-- The names (as string values) contributed to role `r` by the
creators `cs`, in creator order. -/
def namesJ (r : JVal) (cs : List JVal) : List JVal :=
  (cs.filter (fun c => specRole c = r)).map (fun c => JVal.str (specName c))

/-
  ## Helper lemmas
-/

theorem strMk_data (s : String) : String.mk s.data = s := rfl

theorem pyLen_append (a b : String) : pyLen (a ++ b) = pyLen a + pyLen b := by
  simp [pyLen, String.data_append]

theorem pyLen_pySlice (s : String) (n : Nat) : pyLen (pySlice s n) = min n (pyLen s) := by
  simp [pyLen, pySlice]

theorem replCA_id (pat rep : List Char) :
    ∀ l, containsL pat l = false → replCA pat rep l 0 = l := by
  intro l
  induction l with
  | nil => intro _; rfl
  | cons c cs ih =>
    intro h
    simp only [containsL, Bool.or_eq_false_iff] at h
    simp [replCA, h.1, ih h.2]

theorem pyReplace_self (s pat rep : String) (h : pyInStr pat s = false) :
    pyReplace s pat rep = s := by
  unfold pyReplace replC
  rw [replCA_id pat.data rep.data s.data h]

theorem append_ellipsis_ne (a : String) : a ++ "..." ≠ "" := by
  intro h
  have := congrArg pyLen h
  rw [pyLen_append] at this
  simp [pyLen] at this

theorem truncate150_ne (s : String) (h : s ≠ "") : truncate150 s ≠ "" := by
  unfold truncate150
  split
  · exact append_ellipsis_ne _
  · exact h

theorem volLines_spec (d : Dict) :
    volLines d = specVolLines (getTruthy d "volume") (getTruthy d "issue") (getTruthy d "pages") := by
  rcases hv : getTruthy d "volume" with _ | v <;>
    rcases hi : getTruthy d "issue" with _ | i <;>
    rcases hp : getTruthy d "pages" with _ | p <;>
    simp [volLines, specVolLines, hv, hi, hp, String.append_assoc]

theorem tagStrs_mkTags : ∀ ts : List String,
    tagStrs (ts.map (fun t => JVal.obj [("tag", JVal.str t)]))
      = Except.ok (ts.map (fun t => "`" ++ t ++ "`")) := by
  intro ts
  induction ts with
  | nil => rfl
  | cons t ts ih =>
    simp only [tagStrs, List.map_cons, List.mapM_cons] at *
    rw [ih]
    rfl

/-
  ## Claim theorems
-/

/-- C5: for every query, qmode, tag filter and limit, an empty
collaborator result makes `search_items` return exactly the literal
no-items string, with no header and no entries. -/
theorem claim_C5 : ∀ (query : String) (qmode tag : Option String) (limit : Option Int),
    search_items query qmode tag limit (Except.ok [])
      = Except.ok "No items found matching your query." :=
  fun _ _ _ _ => rfl

/-- C8: the note HTML-to-markdown conversion sends the example
`<p>Hello</p><p>World</p>` to `Hello\nWorld\n`, and a string containing
none of the seven fixed patterns passes through unchanged. -/
theorem claim_C8 :
    convert_note "<p>Hello</p><p>World</p>" = "Hello\nWorld\n" ∧
    ∀ s : String, noHtmlTags s = true → convert_note s = s := by
  constructor
  · rfl
  · intro s h
    simp only [noHtmlTags, Bool.not_eq_true', Bool.or_eq_false_iff] at h
    obtain ⟨⟨⟨⟨⟨⟨h1, h2⟩, h3⟩, h4⟩, h5⟩, h6⟩, h7⟩ := h
    simp only [convert_note]
    rw [pyReplace_self _ _ _ h1, pyReplace_self _ _ _ h2, pyReplace_self _ _ _ h3,
      pyReplace_self _ _ _ h4, pyReplace_self _ _ _ h5, pyReplace_self _ _ _ h6,
      pyReplace_self _ _ _ h7]

/-- C8 witness: a string with an unrecognized tag passes through
unchanged. -/
theorem claim_C8_witness :
    noHtmlTags "<div>x</div>" = true ∧ convert_note "<div>x</div>" = "<div>x</div>" :=
  ⟨by decide, claim_C8.2 "<div>x</div>" (by decide)⟩

/-- C2 counterexample: a collaborator failure inside `search_items`
(which performs its calls outside any try/except) propagates out of the
handler instead of being rendered as an error string. -/
theorem claim_C2_counterexample :
    search_items "test" (some "titleCreatorYear") none (some 10)
        (Except.error "connection failed")
      = Except.error "connection failed" := rfl

/-- C2 amended: `get_item_metadata` and `get_item_fulltext` catch every
collaborator failure and render it as an `Error retrieving ...` string,
but `search_items` propagates collaborator failures. -/
theorem claim_C2 :
    (∀ k e : String,
      get_item_metadata k (Except.error e) = "Error retrieving item metadata: " ++ e) ∧
    (∀ (k e : String) (a : Except String (Option AttachmentDetails))
        (f : Except String JVal),
      get_item_fulltext k (Except.error e) a f = "Error retrieving item full text: " ++ e) ∧
    (∀ (k e : String) (item : JVal) (f : Except String JVal), item.truthy = true →
      get_item_fulltext k (Except.ok item) (Except.error e) f
        = "Error retrieving item full text: " ++ e) ∧
    (∀ (q : String) (qm t : Option String) (l : Option Int) (e : String),
      search_items q qm t l (Except.error e) = Except.error e) := by
  refine ⟨fun k e => rfl, fun k e a f => rfl, ?_, fun q qm t l e => rfl⟩
  intro k e item f h
  simp [get_item_fulltext, Bind.bind, Except.bind, h]

/-- C2 witness: a truthy item whose attachment resolution fails still
yields an error string from `get_item_fulltext`. -/
theorem claim_C2_witness :
    (JVal.str "x").truthy = true ∧
    get_item_fulltext "K" (Except.ok (JVal.str "x")) (Except.error "boom")
        (Except.ok (JVal.str ""))
      = "Error retrieving item full text: boom" :=
  ⟨by decide, claim_C2.2.2.1 "K" "boom" (JVal.str "x") (Except.ok (JVal.str "")) (by decide)⟩

/-- C1 counterexample: a record lacking `publicationTitle` but carrying
a volume still renders a `Volume:` line — the volume block is gated on
`volume` alone, as its own line, not appended to the publication line. -/
theorem claim_C1_counterexample :
    getTruthy [("volume", JVal.str "5")] "publicationTitle" = none ∧
    format_item_lines (mkItem (JVal.str "K") [("volume", JVal.str "5")] (JVal.obj []))
      = Except.ok ["## Untitled", "Item Key: `K`", "Type: unknown", "Date: No date",
          "Volume: 5"] := by
  constructor
  · rfl
  · rfl

/-- C1 amended: in full-record rendering the publication line is gated
on `publicationTitle`, but volume/issue/pages form a separate line
gated only on `volume`, with issue and pages appended comma-joined and
shown only if the volume is present; the volume line appears between
the publication line and the abstract section. -/
theorem claim_C1 :
    (∀ d : Dict, volLines d
      = specVolLines (getTruthy d "volume") (getTruthy d "issue") (getTruthy d "pages")) ∧
    (∀ (key : JVal) (d : Dict) (meta : JVal) (CL TB CH : List String),
      pyGetD d "itemType" (JVal.str "unknown") ≠ JVal.str "note" →
      creatorBlock d = Except.ok CL →
      tagBlock d = Except.ok TB →
      childLines [("key", key), ("data", JVal.obj d), ("meta", meta)] = Except.ok CH →
      format_item_lines (mkItem key d meta) =
        Except.ok (basicLines d key (pyGetD d "itemType" (JVal.str "unknown")) ++ CL
          ++ pubLines d
          ++ specVolLines (getTruthy d "volume") (getTruthy d "issue") (getTruthy d "pages")
          ++ absLines d ++ TB ++ identLines d ++ CH)) := by
  refine ⟨volLines_spec, ?_⟩
  intro key d meta CL TB CH hnote hCL hTB hCH
  simp [format_item_lines, mkItem, pyIndex, lookupKey, asObj, Bind.bind, Except.bind,
    hnote, hCL, hTB, hCH, volLines_spec]

/-- C1 witness: the amended composition at a concrete record with
volume and issue but no publication title. -/
theorem claim_C1_witness :
    creatorBlock [("volume", JVal.str "5"), ("issue", JVal.str "2")] = Except.ok [] ∧
    format_item_lines (mkItem (JVal.str "K")
        [("volume", JVal.str "5"), ("issue", JVal.str "2")] (JVal.obj [])) =
      Except.ok (basicLines [("volume", JVal.str "5"), ("issue", JVal.str "2")]
          (JVal.str "K")
          (pyGetD [("volume", JVal.str "5"), ("issue", JVal.str "2")] "itemType"
            (JVal.str "unknown")) ++ []
        ++ pubLines [("volume", JVal.str "5"), ("issue", JVal.str "2")]
        ++ specVolLines
            (getTruthy [("volume", JVal.str "5"), ("issue", JVal.str "2")] "volume")
            (getTruthy [("volume", JVal.str "5"), ("issue", JVal.str "2")] "issue")
            (getTruthy [("volume", JVal.str "5"), ("issue", JVal.str "2")] "pages")
        ++ absLines [("volume", JVal.str "5"), ("issue", JVal.str "2")] ++ []
        ++ identLines [("volume", JVal.str "5"), ("issue", JVal.str "2")] ++ []) :=
  ⟨rfl, claim_C1.2 (JVal.str "K") [("volume", JVal.str "5"), ("issue", JVal.str "2")]
    (JVal.obj []) [] [] [] (by decide) rfl rfl rfl⟩

/-- C9 counterexample: for the note content "A \nB" the code strips the
first line again before using it as the title (yielding "A"), whereas
the claim prescribes the first line of the trimmed content verbatim
(`A` followed by a space). -/
theorem claim_C9_counterexample :
    note_title_of (convert_note "A \nB") = "A" ∧
    claimNoteTitle (convert_note "A \nB") = "A " ∧
    note_title_of (convert_note "A \nB") ≠ claimNoteTitle (convert_note "A \nB") ∧
    search_note_entry 0 (JVal.str "N2") [("itemType", JVal.str "note"), ("note", JVal.str "A \nB")]
      = Except.ok ["## 1. 📝 A", "**Type**: Note | **Key**: `N2`", "\nA \nB"] := by
  refine ⟨rfl, rfl, by decide, rfl⟩

/-- C9 amended: the search-result note title is the first line of the
converted and trimmed note content, additionally stripped of
surrounding whitespace; it is used verbatim when at most 50 characters
long, else its first 5 whitespace-separated words plus an ellipsis; a
note with no content — or only whitespace — titles as the literal
"Note".  The title and the truncated preview appear in the note entry. -/
theorem claim_C9 :
    (∀ s : String, note_title_of s = amendedNoteTitle s) ∧
    (∀ (i : Nat) (key : JVal) (d : Dict) (s : String),
      pyGetD d "note" (JVal.str "") = JVal.str s →
      lookupKey d "parentItem" = none →
      lookupKey d "tags" = none →
      search_note_entry i key d = Except.ok
        ["## " ++ toString (i + 1) ++ ". 📝 " ++ note_title_of (convert_note s),
         "**Type**: Note | **Key**: `" ++ pyStr key ++ "`",
         "\n" ++ truncate150 (pyStrip (convert_note s))]) := by
  constructor
  · intro s
    by_cases hs : s = ""
    · subst hs; rfl
    · by_cases hfl : pyStrip ((pySplitNl (pyStrip s)).head?.getD "") = ""
      · simp [note_title_of, amendedNoteTitle, hs, hfl]
      · by_cases hlen : pyLen (pyStrip ((pySplitNl (pyStrip s)).head?.getD "")) ≤ 50
        · simp [note_title_of, amendedNoteTitle, hs, hfl, hlen]
        · simp [note_title_of, amendedNoteTitle, hs, hfl, hlen, append_ellipsis_ne]
  · intro i key d s hn hp ht
    simp [search_note_entry, hn, getTruthy, hp, ht, searchTagBlock, Bind.bind, Except.bind]

/-- C9 witness: the amended title and entry shape at a concrete
note record. -/
theorem claim_C9_witness :
    note_title_of "A \nB" = amendedNoteTitle "A \nB" ∧
    search_note_entry 0 (JVal.str "N9") [("note", JVal.str "A \nB")]
      = Except.ok
        ["## " ++ toString (0 + 1) ++ ". 📝 " ++ note_title_of (convert_note "A \nB"),
         "**Type**: Note | **Key**: `" ++ pyStr (JVal.str "N9") ++ "`",
         "\n" ++ truncate150 (pyStrip (convert_note "A \nB"))] :=
  ⟨claim_C9.1 "A \nB",
   claim_C9.2 0 (JVal.str "N9") [("note", JVal.str "A \nB")] "A \nB" (by decide) (by decide) (by decide)⟩

/-- C4: the 150-character truncation used by search-result rendering
keeps the first 147 characters plus "..." (exactly 150 characters) for
abstracts longer than 150 characters and is the identity otherwise; a
truthy abstract renders in full in `format_item` and truncated in the
search abstract fragment. -/
theorem claim_C4 : ∀ s : String,
    (150 < pyLen s → truncate150 s = pySlice s 147 ++ "..." ∧ pyLen (truncate150 s) = 150) ∧
    (pyLen s ≤ 150 → truncate150 s = s) ∧
    (∀ d : Dict, getTruthy d "abstractNote" = some (JVal.str s) →
      absLines d = ["\n### Abstract\n" ++ s]) ∧
    (∀ d : Dict, pyGetD d "abstractNote" (JVal.str "") = JVal.str s → s ≠ "" →
      searchAbsLines d = Except.ok ["\n" ++ truncate150 s]) := by
  intro s
  refine ⟨fun h => ⟨?_, ?_⟩, fun h => ?_, fun d hd => ?_, fun d hd hs => ?_⟩
  · unfold truncate150
    rw [if_pos h]
  · unfold truncate150
    rw [if_pos h, pyLen_append, pyLen_pySlice]
    have h3 : pyLen "..." = 3 := rfl
    omega
  · unfold truncate150
    rw [if_neg (by omega)]
  · unfold absLines
    rw [hd]
    rfl
  · unfold searchAbsLines
    rw [hd]
    simp [truncate150_ne s hs]

/-- C4 witness: the truncation at a concrete 151-character abstract. -/
theorem claim_C4_witness :
    150 < pyLen longAbstract ∧
    truncate150 longAbstract = pySlice longAbstract 147 ++ "..." ∧
    pyLen (truncate150 longAbstract) = 150 ∧
    absLines [("abstractNote", JVal.str longAbstract)]
      = ["\n### Abstract\n" ++ longAbstract] :=
  ⟨by decide, ((claim_C4 longAbstract).1 (by decide)).1, ((claim_C4 longAbstract).1 (by decide)).2,
   (claim_C4 longAbstract).2.2.1 [("abstractNote", JVal.str longAbstract)] (by decide)⟩

/-- C7: for every tag list, the search-result tag line renders only the
first 5 tags as inline code spans joined by single spaces with a
literal "..." appended exactly when more than 5 tags exist, while the
full-record tag section renders every tag joined by ", ". -/
theorem claim_C7 : ∀ (ts : List String) (d : Dict),
    lookupKey d "tags" = some (mkTags ts) → ts ≠ [] →
    searchTagBlock d = Except.ok ["\n**Tags**: " ++ String.intercalate " "
        ((ts.take 5).map (fun t => "`" ++ t ++ "`")
          ++ if 5 < ts.length then ["..."] else [])] ∧
    tagBlock d = Except.ok ["\n### Tags\n"
        ++ String.intercalate ", " (ts.map (fun t => "`" ++ t ++ "`"))] := by
  intro ts d h hne
  have htr : getTruthy d "tags" = some (mkTags ts) := by
    simp [getTruthy, h, mkTags, JVal.truthy, List.isEmpty_eq_true, hne]
  constructor
  · by_cases hlen : 5 < ts.length <;>
      simp [searchTagBlock, htr, mkTags, pyIterList, Bind.bind, Except.bind,
        ← List.map_take, tagStrs_mkTags, hlen]
  · simp [tagBlock, htr, mkTags, pyIterList, Bind.bind, Except.bind, tagStrs_mkTags]

/-- C7 witness: a 7-tag list yields 5 code spans plus "..." in search
mode and all 7 code spans in full-record mode. -/
theorem claim_C7_witness :
    searchTagBlock [("tags", mkTags ["t1", "t2", "t3", "t4", "t5", "t6", "t7"])]
      = Except.ok ["\n**Tags**: " ++ String.intercalate " "
          ((["t1", "t2", "t3", "t4", "t5", "t6", "t7"].take 5).map (fun t => "`" ++ t ++ "`")
            ++ if 5 < ["t1", "t2", "t3", "t4", "t5", "t6", "t7"].length then ["..."] else [])] ∧
    tagBlock [("tags", mkTags ["t1", "t2", "t3", "t4", "t5", "t6", "t7"])]
      = Except.ok ["\n### Tags\n" ++ String.intercalate ", "
          (["t1", "t2", "t3", "t4", "t5", "t6", "t7"].map (fun t => "`" ++ t ++ "`"))] :=
  claim_C7 ["t1", "t2", "t3", "t4", "t5", "t6", "t7"]
    [("tags", mkTags ["t1", "t2", "t3", "t4", "t5", "t6", "t7"])] (by decide) (by decide)

theorem mid_comma_ne (a b : String) : a ++ ", " ++ b ≠ "" := by
  intro h
  have := congrArg pyLen h
  rw [pyLen_append, pyLen_append] at this
  simp [pyLen] at this

theorem goodCreator_role (c : JVal) (h : goodCreator c = true) :
    ∃ rs, specRole c = JVal.str rs := by
  cases c with
  | obj cd =>
    simp only [goodCreator, Bool.and_eq_true] at h
    simp only [specRole, pyGetD]
    rcases hr : lookupKey cd "creatorType" with _ | v
    · exact ⟨"contributor", rfl⟩
    · rw [hr] at h
      cases v with
      | str rs => exact ⟨rs, rfl⟩
      | num _ => simp at h
      | arr _ => simp at h
      | obj _ => simp at h
  | str _ => simp [goodCreator] at h
  | num _ => simp [goodCreator] at h
  | arr _ => simp [goodCreator] at h

theorem creatorRoleName_good (c : JVal) (h : goodCreator c = true) :
    creatorRoleName c = Except.ok (specRole c, JVal.str (specName c)) ∧ specName c ≠ "" := by
  cases c with
  | obj cd =>
    simp only [goodCreator, Bool.and_eq_true] at h
    rcases hf : lookupKey cd "firstName" with _ | f <;>
      rcases hl : lookupKey cd "lastName" with _ | l <;>
      simp only [creatorRoleName, specRole, specName, hf, hl]
    case none.none | none.some | some.none =>
      rw [hf, hl] at h
      rcases hn : lookupKey cd "name" with _ | nv
      · rw [hn] at h
        simp at h
      · rw [hn] at h
        cases nv with
        | str ns =>
          simp only [Bool.and_eq_true] at h
          refine ⟨rfl, ?_⟩
          simpa using h.2
        | num _ => simp at h
        | arr _ => simp at h
        | obj _ => simp at h
    case some.some =>
      exact ⟨by trivial, mid_comma_ne _ _⟩
  | str _ => simp [goodCreator] at h
  | num _ => simp [goodCreator] at h
  | arr _ => simp [goodCreator] at h

theorem namesJ_nil (r : JVal) : namesJ r [] = [] := rfl

theorem namesJ_cons (r c : JVal) (cs : List JVal) :
    namesJ r (c :: cs) =
      if specRole c = r then JVal.str (specName c) :: namesJ r cs else namesJ r cs := by
  by_cases h : specRole c = r
  · simp [namesJ, List.filter_cons, h]
  · simp [namesJ, List.filter_cons, h]

theorem addName_keys (role n : JVal) : ∀ acc : List (JVal × List JVal),
    (addName role n acc).map Prod.fst =
      if role ∈ acc.map Prod.fst then acc.map Prod.fst else acc.map Prod.fst ++ [role] := by
  intro acc
  induction acc with
  | nil => simp [addName]
  | cons hd rest ih =>
    obtain ⟨r0, ns0⟩ := hd
    by_cases h0 : r0 = role
    · subst h0
      simp [addName]
    · have hro : role ≠ r0 := fun h => h0 h.symm
      by_cases hm : role ∈ rest.map Prod.fst
      · simp [addName, h0, ih, hm, List.mem_cons, hro]
      · simp [addName, h0, ih, hm, List.mem_cons, hro]

theorem addName_notmem (role n : JVal) : ∀ acc : List (JVal × List JVal),
    role ∉ acc.map Prod.fst → addName role n acc = acc ++ [(role, [n])] := by
  intro acc
  induction acc with
  | nil => intro _; rfl
  | cons hd rest ih =>
    obtain ⟨r0, ns0⟩ := hd
    intro hnm
    simp only [List.map_cons, List.mem_cons] at hnm
    push_neg at hnm
    have hr : ¬r0 = role := fun h => hnm.1 h.symm
    simp [addName, hr, ih hnm.2]

theorem map_namesJ_skip (c : JVal) (cs : List JVal) :
    ∀ l : List (JVal × List JVal), specRole c ∉ l.map Prod.fst →
    l.map (fun rn => (rn.1, rn.2 ++ namesJ rn.1 (c :: cs)))
      = l.map (fun rn => (rn.1, rn.2 ++ namesJ rn.1 cs)) := by
  intro l hl
  apply List.map_congr_left
  intro rn hrn
  have hne : specRole c ≠ rn.1 := by
    intro h
    exact hl (h ▸ List.mem_map_of_mem Prod.fst hrn)
  rw [namesJ_cons, if_neg hne]

theorem specGroupEx_congr : ∀ (cs : List JVal) (ks1 ks2 : List JVal),
    (∀ x, x ∈ ks1 ↔ x ∈ ks2) → specGroupEx ks1 cs = specGroupEx ks2 cs := by
  intro cs
  induction cs with
  | nil => intro _ _ _; rfl
  | cons c cs ih =>
    intro ks1 ks2 hiff
    simp only [specGroupEx]
    by_cases hm : specRole c ∈ ks1
    · rw [if_pos hm, if_pos ((hiff _).mp hm), ih ks1 ks2 hiff]
    · rw [if_neg hm, if_neg (fun h => hm ((hiff _).mpr h))]
      rw [ih (specRole c :: ks1) (specRole c :: ks2) (by intro x; simp [hiff x])]

theorem mapM_str_extract : ∀ l : List String,
    List.mapM (fun v =>
      match v with
      | JVal.str s => Except.ok s
      | _ => Except.error "TypeError: sequence item: expected str instance")
      (l.map JVal.str) = Except.ok l := by
  intro l
  induction l with
  | nil => rfl
  | cons x xs ih =>
    simp only [List.map_cons, List.mapM_cons, ih, Bind.bind, Except.bind]
    rfl

theorem pyJoinStrs_strs (sep : String) : ∀ l : List String,
    pyJoinStrs sep (l.map JVal.str) = Except.ok (String.intercalate sep l) := by
  intro l
  unfold pyJoinStrs
  rw [mapM_str_extract]
  rfl

theorem addName_map_mem (c : JVal) (cs : List JVal) :
    ∀ acc : List (JVal × List JVal),
    specRole c ∈ acc.map Prod.fst → (acc.map Prod.fst).Nodup →
    (addName (specRole c) (JVal.str (specName c)) acc).map
        (fun rn => (rn.1, rn.2 ++ namesJ rn.1 cs))
      = acc.map (fun rn => (rn.1, rn.2 ++ namesJ rn.1 (c :: cs))) := by
  intro acc
  induction acc with
  | nil => intro h _; simp at h
  | cons hd rest ih =>
    obtain ⟨r0, ns0⟩ := hd
    intro hmem hnd
    simp only [List.map_cons, List.nodup_cons] at hnd
    by_cases h0 : r0 = specRole c
    · simp only [addName, if_pos h0, List.map_cons]
      rw [map_namesJ_skip c cs rest (h0 ▸ hnd.1)]
      rw [namesJ_cons, if_pos h0.symm]
      simp [List.append_assoc]
    · have hcr : specRole c ≠ r0 := fun h => h0 h.symm
      have hmem2 : specRole c ∈ rest.map Prod.fst := by
        rcases List.mem_cons.mp hmem with h | h
        · exact absurd h hcr
        · exact h
      simp only [addName, if_neg h0, List.map_cons]
      rw [ih hmem2 hnd.2]
      rw [namesJ_cons, if_neg hcr]

theorem creators_fold_eq : ∀ (cs : List JVal) (acc : List (JVal × List JVal)),
    (∀ x ∈ cs, goodCreator x = true) → (acc.map Prod.fst).Nodup →
    creatorsByRole cs acc = Except.ok
      (acc.map (fun rn => (rn.1, rn.2 ++ namesJ rn.1 cs))
        ++ (specGroupEx (acc.map Prod.fst) cs).map (fun rn => (rn.1, rn.2.map JVal.str))) := by
  intro cs
  induction cs with
  | nil =>
    intro acc _ _
    simp [creatorsByRole, specGroupEx, namesJ]
  | cons c cs ih =>
    intro acc hg hnd
    have hgc := hg c (List.mem_cons_self c cs)
    have hgcs : ∀ x ∈ cs, goodCreator x = true := fun x hx => hg x (List.mem_cons_of_mem c hx)
    obtain ⟨hrn, hne⟩ := creatorRoleName_good c hgc
    have htr : (JVal.str (specName c)).truthy = true := by simp [JVal.truthy, hne]
    have hstep : creatorsByRole (c :: cs) acc
        = creatorsByRole cs (addName (specRole c) (JVal.str (specName c)) acc) := by
      simp [creatorsByRole, hrn, Bind.bind, Except.bind, htr]
    rw [hstep]
    by_cases hmem : specRole c ∈ acc.map Prod.fst
    · have hnd2 : ((addName (specRole c) (JVal.str (specName c)) acc).map Prod.fst).Nodup := by
        rw [addName_keys, if_pos hmem]; exact hnd
      rw [ih _ hgcs hnd2, addName_keys, if_pos hmem]
      rw [addName_map_mem c cs acc hmem hnd]
      have hgrp : specGroupEx (acc.map Prod.fst) (c :: cs)
          = specGroupEx (acc.map Prod.fst) cs := by
        simp [specGroupEx, hmem]
      rw [hgrp]
    · have hadd := addName_notmem (specRole c) (JVal.str (specName c)) acc hmem
      rw [hadd]
      have hkeys : ((acc ++ [(specRole c, [JVal.str (specName c)])]).map Prod.fst)
          = acc.map Prod.fst ++ [specRole c] := by simp
      have hnd2 : ((acc ++ [(specRole c, [JVal.str (specName c)])]).map Prod.fst).Nodup := by
        rw [hkeys]
        simp [List.nodup_append, hnd, hmem]
      rw [ih _ hgcs hnd2, hkeys]
      have hgrp : specGroupEx (acc.map Prod.fst) (c :: cs)
          = (specRole c, ((c :: cs).filter (fun x => specRole x = specRole c)).map specName)
              :: specGroupEx (specRole c :: acc.map Prod.fst) cs := by
        simp [specGroupEx, hmem]
      rw [hgrp]
      have hcongr : specGroupEx (acc.map Prod.fst ++ [specRole c]) cs
          = specGroupEx (specRole c :: acc.map Prod.fst) cs :=
        specGroupEx_congr cs _ _ (by intro x; simp [List.mem_append, List.mem_cons, or_comm])
      rw [hcongr]
      rw [List.map_append, ← map_namesJ_skip c cs acc hmem]
      simp [namesJ, List.filter_cons]

theorem roleLine_strs (rs : String) (ns : List String) :
    roleLine (JVal.str rs) (ns.map JVal.str)
      = Except.ok (pyCapitalize rs ++ (if 1 < ns.length then "s" else "") ++ ": "
          ++ String.intercalate "; " ns) := by
  simp [roleLine, pyJoinStrs_strs, Bind.bind, Except.bind, List.length_map]

theorem mapM_roleLine_spec : ∀ (cs ks : List JVal),
    (∀ x ∈ cs, goodCreator x = true) →
    List.mapM (fun rn => roleLine rn.1 rn.2)
      ((specGroupEx ks cs).map (fun rn => (rn.1, rn.2.map JVal.str)))
      = Except.ok ((specGroupEx ks cs).map (fun rn =>
          pyCapitalize (pyStr rn.1) ++ (if 1 < rn.2.length then "s" else "") ++ ": "
            ++ String.intercalate "; " rn.2)) := by
  intro cs
  induction cs with
  | nil => intro ks _; rfl
  | cons c cs ih =>
    intro ks hg
    have hgc := hg c (List.mem_cons_self c cs)
    have hgcs : ∀ x ∈ cs, goodCreator x = true := fun x hx => hg x (List.mem_cons_of_mem c hx)
    by_cases hm : specRole c ∈ ks
    · simp only [specGroupEx, if_pos hm]
      exact ih ks hgcs
    · obtain ⟨rs, hrs⟩ := goodCreator_role c hgc
      simp only [specGroupEx, if_neg hm, List.map_cons, List.mapM_cons]
      rw [hrs, roleLine_strs, ih (JVal.str rs :: ks) hgcs]
      simp [pyStr, Bind.bind, Except.bind, pure, Except.pure]

/-- C6 counterexample: Python `capitalize` lowercases the rest of the
role string, so the role `bookAuthor` is labelled `Bookauthor`, not the
`BookAuthor` that "role string with first letter capitalized"
prescribes. -/
theorem claim_C6_counterexample :
    format_item_lines (mkItem (JVal.str "K2")
        [("creators", JVal.arr [JVal.obj [("firstName", JVal.str "A"),
          ("lastName", JVal.str "B"), ("creatorType", JVal.str "bookAuthor")]])]
        (JVal.obj []))
      = Except.ok ["## Untitled", "Item Key: `K2`", "Type: unknown", "Date: No date",
          "Bookauthor: B, A"] ∧
    "BookAuthor: B, A" ∉ ["## Untitled", "Item Key: `K2`", "Type: unknown", "Date: No date",
          "Bookauthor: B, A"] := by
  exact ⟨rfl, by decide⟩

/-- C6 amended: creators are grouped by role (default "contributor") in
first-seen order; within a role each creator renders as
`LastName, FirstName` when both parts are present, else the bare name;
names join with "; "; the label is the role with its first letter
uppercased and the remaining letters lowercased (Python `capitalize`),
pluralized with "s" when more than one creator shares the role.  The
claim's concrete two-author example renders `Authors: Doe, John; Smith,
Jane`. -/
theorem claim_C6 :
    (∀ (d : Dict) (cs : List JVal),
      pyGetD d "creators" (JVal.arr []) = JVal.arr cs →
      (∀ c ∈ cs, goodCreator c = true) →
      creatorBlock d = Except.ok (specCreatorLines cs)) ∧
    format_item_lines (mkItem (JVal.str "K1")
        [("itemType", JVal.str "journalArticle"),
         ("creators", JVal.arr [
            JVal.obj [("firstName", JVal.str "John"), ("lastName", JVal.str "Doe"),
              ("creatorType", JVal.str "author")],
            JVal.obj [("firstName", JVal.str "Jane"), ("lastName", JVal.str "Smith"),
              ("creatorType", JVal.str "author")]])]
        (JVal.obj []))
      = Except.ok ["## Untitled", "Item Key: `K1`", "Type: journalArticle",
          "Date: No date", "Authors: Doe, John; Smith, Jane"] := by
  constructor
  · intro d cs h hg
    unfold creatorBlock
    rw [h]
    have hiter : pyIterList (JVal.arr cs) = Except.ok cs := rfl
    rw [hiter]
    simp only [Bind.bind, Except.bind]
    rw [creators_fold_eq cs [] hg (by simp)]
    simp only [List.map_nil, List.nil_append]
    rw [mapM_roleLine_spec cs [] hg]
    rfl
  · rfl

/-- C6 witness: the grouping equivalence applied at the claim's
two-author record. -/
theorem claim_C6_witness :
    creatorBlock [("itemType", JVal.str "journalArticle"),
        ("creators", JVal.arr [
          JVal.obj [("firstName", JVal.str "John"), ("lastName", JVal.str "Doe"),
            ("creatorType", JVal.str "author")],
          JVal.obj [("firstName", JVal.str "Jane"), ("lastName", JVal.str "Smith"),
            ("creatorType", JVal.str "author")]])]
      = Except.ok (specCreatorLines [
          JVal.obj [("firstName", JVal.str "John"), ("lastName", JVal.str "Doe"),
            ("creatorType", JVal.str "author")],
          JVal.obj [("firstName", JVal.str "Jane"), ("lastName", JVal.str "Smith"),
            ("creatorType", JVal.str "author")]]) :=
  claim_C6.1 _ _ (by decide) (by decide)

theorem mapM_extract_ok : ∀ l : List JVal, (∀ n ∈ l, ∃ t, n = JVal.str t) →
    ∃ ss, List.mapM (fun v =>
      match v with
      | JVal.str s => Except.ok s
      | _ => Except.error "TypeError: sequence item: expected str instance") l
      = Except.ok ss := by
  intro l
  induction l with
  | nil => exact fun _ => ⟨[], rfl⟩
  | cons x xs ih =>
    intro h
    obtain ⟨t, ht⟩ := h x (List.mem_cons_self x xs)
    obtain ⟨ss, hss⟩ := ih (fun n hn => h n (List.mem_cons_of_mem x hn))
    subst ht
    refine ⟨t :: ss, ?_⟩
    simp only [List.mapM_cons, hss, Bind.bind, Except.bind]
    rfl

theorem pyJoinStrs_ok (sep : String) (l : List JVal)
    (h : ∀ n ∈ l, ∃ t, n = JVal.str t) : ∃ r, pyJoinStrs sep l = Except.ok r := by
  obtain ⟨ss, hss⟩ := mapM_extract_ok l h
  refine ⟨String.intercalate sep ss, ?_⟩
  unfold pyJoinStrs
  rw [hss]
  rfl

theorem roleLine_ok (role : JVal) (names : List JVal)
    (hr : ∃ s, role = JVal.str s) (hn : ∀ n ∈ names, ∃ t, n = JVal.str t) :
    ∃ r, roleLine role names = Except.ok r := by
  obtain ⟨s, hs⟩ := hr
  obtain ⟨j, hj⟩ := pyJoinStrs_ok "; " names hn
  subst hs
  refine ⟨pyCapitalize s ++ (if names.length > 1 then "s" else "") ++ ": " ++ j, ?_⟩
  unfold roleLine
  rw [hj]
  rfl

theorem mapM_roleLine_ok : ∀ l : List (JVal × List JVal),
    (∀ rn ∈ l, (∃ s, rn.1 = JVal.str s) ∧ ∀ n ∈ rn.2, ∃ t, n = JVal.str t) →
    ∃ r, List.mapM (fun rn => roleLine rn.1 rn.2) l = Except.ok r := by
  intro l
  induction l with
  | nil => exact fun _ => ⟨[], rfl⟩
  | cons rn rest ih =>
    intro h
    obtain ⟨hr, hn⟩ := h rn (List.mem_cons_self rn rest)
    obtain ⟨x, hx⟩ := roleLine_ok rn.1 rn.2 hr hn
    obtain ⟨xs, hxs⟩ := ih (fun p hp => h p (List.mem_cons_of_mem rn hp))
    refine ⟨x :: xs, ?_⟩
    simp only [List.mapM_cons, hx, hxs, Bind.bind, Except.bind]
    rfl

theorem addName_strinv (role n : JVal) (hr : ∃ s, role = JVal.str s)
    (hn : ∃ t, n = JVal.str t) :
    ∀ acc : List (JVal × List JVal),
    (∀ rn ∈ acc, (∃ s, rn.1 = JVal.str s) ∧ ∀ m ∈ rn.2, ∃ t, m = JVal.str t) →
    (∀ rn ∈ addName role n acc, (∃ s, rn.1 = JVal.str s) ∧ ∀ m ∈ rn.2, ∃ t, m = JVal.str t) := by
  intro acc
  induction acc with
  | nil =>
    intro _ rn hrn
    simp only [addName, List.mem_singleton] at hrn
    subst hrn
    refine ⟨hr, ?_⟩
    intro m hm
    simp only [List.mem_singleton] at hm
    subst hm
    exact hn
  | cons hd rest ih =>
    intro hacc rn hrn
    obtain ⟨r0, ns0⟩ := hd
    by_cases h0 : r0 = role
    · simp only [addName, if_pos h0, List.mem_cons] at hrn
      rcases hrn with h | h
      · subst h
        obtain ⟨h1, h2⟩ := hacc (r0, ns0) (List.mem_cons_self _ _)
        refine ⟨h1, ?_⟩
        intro m hm
        rcases List.mem_append.mp hm with hm2 | hm2
        · exact h2 m hm2
        · simp only [List.mem_singleton] at hm2
          subst hm2
          exact hn
      · exact hacc rn (List.mem_cons_of_mem _ h)
    · simp only [addName, if_neg h0, List.mem_cons] at hrn
      rcases hrn with h | h
      · subst h
        exact hacc (r0, ns0) (List.mem_cons_self _ _)
      · exact ih (fun p hp => hacc p (List.mem_cons_of_mem _ hp)) rn h

theorem creatorRoleName_wf (c : JVal) (h : wfCreator c = true) :
    ∃ role name, creatorRoleName c = Except.ok (role, name) ∧
      (∃ s, role = JVal.str s) ∧ (∃ t, name = JVal.str t) := by
  cases c with
  | obj cd =>
    simp only [wfCreator, Bool.and_eq_true] at h
    have hrole : ∃ s, pyGetD cd "creatorType" (JVal.str "contributor") = JVal.str s := by
      rcases hr : lookupKey cd "creatorType" with _ | v
      · exact ⟨"contributor", by simp [pyGetD, hr]⟩
      · rw [hr] at h
        cases v with
        | str rs => exact ⟨rs, by simp [pyGetD, hr]⟩
        | num _ => simp at h
        | arr _ => simp at h
        | obj _ => simp at h
    rcases hf : lookupKey cd "firstName" with _ | f <;>
      rcases hl : lookupKey cd "lastName" with _ | l
    case none.none | none.some | some.none =>
      rcases hn : lookupKey cd "name" with _ | nv
      · exact ⟨_, _, by simp [creatorRoleName, hf, hl, hn], hrole, ⟨"", rfl⟩⟩
      · rw [hn] at h
        cases nv with
        | str ns => exact ⟨_, _, by simp [creatorRoleName, hf, hl, hn], hrole, ⟨ns, rfl⟩⟩
        | num _ => simp at h
        | arr _ => simp at h
        | obj _ => simp at h
    case some.some =>
      refine ⟨pyGetD cd "creatorType" (JVal.str "contributor"),
        JVal.str (pyStr l ++ ", " ++ pyStr f), ?_, hrole, ⟨_, rfl⟩⟩
      simp [creatorRoleName, hf, hl]
  | str _ => simp [wfCreator] at h
  | num _ => simp [wfCreator] at h
  | arr _ => simp [wfCreator] at h

theorem creatorsByRole_ok : ∀ (cs : List JVal) (acc : List (JVal × List JVal)),
    (∀ c ∈ cs, wfCreator c = true) →
    (∀ rn ∈ acc, (∃ s, rn.1 = JVal.str s) ∧ ∀ m ∈ rn.2, ∃ t, m = JVal.str t) →
    ∃ out, creatorsByRole cs acc = Except.ok out ∧
      (∀ rn ∈ out, (∃ s, rn.1 = JVal.str s) ∧ ∀ m ∈ rn.2, ∃ t, m = JVal.str t) := by
  intro cs
  induction cs with
  | nil => exact fun acc _ hacc => ⟨acc, rfl, hacc⟩
  | cons c cs ih =>
    intro acc hg hacc
    obtain ⟨role, name, hcrn, hrole, hname⟩ :=
      creatorRoleName_wf c (hg c (List.mem_cons_self c cs))
    have hgcs : ∀ x ∈ cs, wfCreator x = true := fun x hx => hg x (List.mem_cons_of_mem c hx)
    by_cases htr : name.truthy = true
    · obtain ⟨out, hout, hinv⟩ := ih (addName role name acc) hgcs
        (addName_strinv role name hrole hname acc hacc)
      refine ⟨out, ?_, hinv⟩
      simp only [creatorsByRole, hcrn, Bind.bind, Except.bind, htr, if_true]
      exact hout
    · obtain ⟨out, hout, hinv⟩ := ih acc hgcs hacc
      refine ⟨out, ?_, hinv⟩
      simp only [creatorsByRole, hcrn, Bind.bind, Except.bind]
      rw [if_neg (by simp [htr])]
      exact hout

theorem creatorBlock_ok (d : Dict)
    (h : match lookupKey d "creators" with
         | none => True
         | some (JVal.arr l) => ∀ c ∈ l, wfCreator c = true
         | some _ => False) :
    ∃ r, creatorBlock d = Except.ok r := by
  rcases hc : lookupKey d "creators" with _ | v
  · obtain ⟨out, hout, hinv⟩ := creatorsByRole_ok [] [] (by simp) (by simp)
    obtain ⟨r, hr⟩ := mapM_roleLine_ok out hinv
    refine ⟨r, ?_⟩
    unfold creatorBlock
    rw [pyGetD, hc]
    simp only [Option.getD, pyIterList, Bind.bind, Except.bind]
    rw [hout]
    exact hr
  · rw [hc] at h
    cases v with
    | arr l =>
      obtain ⟨out, hout, hinv⟩ := creatorsByRole_ok l [] h (by simp)
      obtain ⟨r, hr⟩ := mapM_roleLine_ok out hinv
      refine ⟨r, ?_⟩
      unfold creatorBlock
      rw [pyGetD, hc]
      simp only [Option.getD, pyIterList, Bind.bind, Except.bind]
      rw [hout]
      exact hr
    | str _ => simp at h
    | num _ => simp at h
    | obj _ => simp at h

theorem tagStrs_ok : ∀ l : List JVal, (∀ t ∈ l, wfTag t = true) →
    ∃ r, tagStrs l = Except.ok r := by
  intro l
  induction l with
  | nil => exact fun _ => ⟨[], rfl⟩
  | cons t ts ih =>
    intro h
    have ht := h t (List.mem_cons_self t ts)
    obtain ⟨rs, hrs⟩ := ih (fun x hx => h x (List.mem_cons_of_mem t hx))
    cases t with
    | obj td =>
      simp only [wfTag] at ht
      rcases htt : lookupKey td "tag" with _ | v
      · rw [htt] at ht; simp at ht
      · rw [htt] at ht
        cases v with
        | str s =>
          refine ⟨("`" ++ s ++ "`") :: rs, ?_⟩
          have hhead : pyIndex (JVal.obj td) "tag" = Except.ok (JVal.str s) := by
            simp [pyIndex, htt]
          simp only [tagStrs, List.mapM_cons, Bind.bind, Except.bind]
          rw [hhead]
          simp only [tagStrs, Bind.bind, Except.bind] at hrs
          rw [hrs]
          rfl
        | num _ => simp at ht
        | arr _ => simp at ht
        | obj _ => simp at ht
    | str _ => simp [wfTag] at ht
    | num _ => simp [wfTag] at ht
    | arr _ => simp [wfTag] at ht

theorem tagBlock_ok (d : Dict)
    (h : match lookupKey d "tags" with
         | none => True
         | some (JVal.arr l) => ∀ t ∈ l, wfTag t = true
         | some _ => False) :
    ∃ r, tagBlock d = Except.ok r := by
  rcases hc : lookupKey d "tags" with _ | v
  · exact ⟨[], by unfold tagBlock; rw [getTruthy, hc]⟩
  · rw [hc] at h
    cases v with
    | arr l =>
      by_cases hl : l.isEmpty
      · refine ⟨[], ?_⟩
        unfold tagBlock
        rw [getTruthy, hc]
        simp [JVal.truthy, hl]
      · obtain ⟨ts, hts⟩ := tagStrs_ok l h
        refine ⟨["\n### Tags\n" ++ String.intercalate ", " ts], ?_⟩
        unfold tagBlock
        rw [getTruthy, hc]
        simp only [JVal.truthy, hl, Bool.not_false, if_true, pyIterList,
          Bind.bind, Except.bind]
        rw [hts]
    | str _ => simp at h
    | num _ => simp at h
    | obj _ => simp at h

theorem childLines_ok (itemD : Dict)
    (h : (match lookupKey itemD "meta" with
          | none => true
          | some (JVal.obj md) =>
            (match lookupKey md "numChildren" with
             | none => true
             | some (JVal.num _) => true
             | some _ => false)
          | some _ => false) = true) :
    ∃ r, childLines itemD = Except.ok r := by
  rcases hm : lookupKey itemD "meta" with _ | v
  · refine ⟨[], ?_⟩
    unfold childLines
    rw [pyGetD, hm]
    rfl
  · rw [hm] at h
    cases v with
    | obj md =>
      unfold childLines
      rw [pyGetD, hm]
      simp only [Option.getD, asObj, Bind.bind, Except.bind]
      by_cases ht : (pyGetD md "numChildren" (JVal.num 0)).truthy = true
      · exact ⟨_, by rw [if_pos ht]⟩
      · exact ⟨[], by rw [if_neg ht]⟩
    | str _ => simp at h
    | num _ => simp at h
    | arr _ => simp at h

theorem noteLines_ok (item_key : JVal) (d : Dict)
    (hnote : (match lookupKey d "note" with
              | none => true
              | some (JVal.str _) => true
              | some _ => false) = true)
    (htags : match lookupKey d "tags" with
             | none => True
             | some (JVal.arr l) => ∀ t ∈ l, wfTag t = true
             | some _ => False) :
    ∃ r, noteLines item_key d = Except.ok r := by
  obtain ⟨tg, htg⟩ := tagBlock_ok d htags
  rcases hn : lookupKey d "note" with _ | v
  · unfold noteLines
    rw [pyGetD, hn]
    simp only [Option.getD, Bind.bind, Except.bind]
    rw [htg]
    exact ⟨_, rfl⟩
  · rw [hn] at hnote
    cases v with
    | str s =>
      unfold noteLines
      rw [pyGetD, hn]
      simp only [Option.getD, Bind.bind, Except.bind]
      rw [htg]
      exact ⟨_, rfl⟩
    | num _ => simp at hnote
    | arr _ => simp at hnote
    | obj _ => simp at hnote

/-- C3: the item renderer is total on well-formed records per the §3
optionality rules — it returns a string and never raises; every
optional field degrades by omission. -/
theorem claim_C3 : ∀ item : JVal, wellFormed item = true →
    ∃ s, format_item item = Except.ok s := by
  intro item h
  cases item with
  | obj itemD =>
    simp only [wellFormed, Bool.and_eq_true] at h
    obtain ⟨⟨hkey, hdata⟩, hmeta⟩ := h
    rcases hd : lookupKey itemD "data" with _ | dv
    · rw [hd] at hdata; simp at hdata
    · rw [hd] at hdata
      cases dv with
      | obj d =>
        simp only [wfData, Bool.and_eq_true] at hdata
        obtain ⟨⟨hcreators, htags⟩, hnote⟩ := hdata
        rcases hk : lookupKey itemD "key" with _ | kv
        · rw [hk] at hkey; simp at hkey
        · have htagsP : match lookupKey d "tags" with
              | none => True
              | some (JVal.arr l) => ∀ t ∈ l, wfTag t = true
              | some _ => False := by
            rcases h2 : lookupKey d "tags" with _ | v
            · trivial
            · rw [h2] at htags
              cases v <;> simp_all [List.all_eq_true]
          have hcreatorsP : match lookupKey d "creators" with
              | none => True
              | some (JVal.arr l) => ∀ c ∈ l, wfCreator c = true
              | some _ => False := by
            rcases h2 : lookupKey d "creators" with _ | v
            · trivial
            · rw [h2] at hcreators
              cases v <;> simp_all [List.all_eq_true]
          suffices hl : ∃ l, format_item_lines (JVal.obj itemD) = Except.ok l by
            obtain ⟨l, hll⟩ := hl
            refine ⟨String.intercalate "\n" l, ?_⟩
            unfold format_item
            rw [hll]
            rfl
          have hidx : pyIndex (JVal.obj itemD) "data" = Except.ok (JVal.obj d) := by
            simp [pyIndex, hd]
          have hidxk : pyIndex (JVal.obj itemD) "key" = Except.ok kv := by
            simp [pyIndex, hk]
          by_cases hni : pyGetD d "itemType" (JVal.str "unknown") = JVal.str "note"
          · obtain ⟨r, hr⟩ := noteLines_ok kv d hnote htagsP
            refine ⟨r, ?_⟩
            unfold format_item_lines
            simp only [hidx, hidxk, asObj, Bind.bind, Except.bind]
            rw [if_pos hni]
            exact hr
          · obtain ⟨cl, hcl⟩ := creatorBlock_ok d hcreatorsP
            obtain ⟨tb, htb⟩ := tagBlock_ok d htagsP
            obtain ⟨ch, hch⟩ := childLines_ok itemD hmeta
            unfold format_item_lines
            simp only [hidx, hidxk, asObj, Bind.bind, Except.bind]
            rw [if_neg hni, hcl, htb, hch]
            exact ⟨_, rfl⟩
      | str _ => simp at hdata
      | num _ => simp at hdata
      | arr _ => simp at hdata
  | str _ => simp [wellFormed] at h
  | num _ => simp [wellFormed] at h
  | arr _ => simp [wellFormed] at h

/-- C3 witness: a concrete well-formed record with creators, tags, a
note field and meta renders successfully. -/
theorem claim_C3_witness :
    wellFormed (mkItem (JVal.str "K")
        [("title", JVal.str "T"),
         ("creators", JVal.arr [JVal.obj [("name", JVal.str "Org")]]),
         ("tags", JVal.arr [JVal.obj [("tag", JVal.str "t")]])]
        (JVal.obj [("numChildren", JVal.num 2)])) = true ∧
    ∃ s, format_item (mkItem (JVal.str "K")
        [("title", JVal.str "T"),
         ("creators", JVal.arr [JVal.obj [("name", JVal.str "Org")]]),
         ("tags", JVal.arr [JVal.obj [("tag", JVal.str "t")]])]
        (JVal.obj [("numChildren", JVal.num 2)])) = Except.ok s :=
  ⟨by decide, claim_C3 _ (by decide)⟩

theorem emptyVal_not_truthy (k : String) : (emptyVal k).truthy = false := by
  unfold emptyVal
  split <;> rfl

theorem lookup_removeF (d : Dict) (k k' : String) :
    lookupKey (removeF d k) k' = if k' = k then none else lookupKey d k' := by
  induction d with
  | nil => simp [removeF, lookupKey]
  | cons hd rest ih =>
    obtain ⟨k0, v0⟩ := hd
    by_cases h0 : k0 = k
    · subst h0
      simp only [removeF, eq_self_iff_true, if_true]
      by_cases hk : k' = k0
      · subst hk
        simpa using ih
      · have h2 : ¬k0 = k' := fun h => hk h.symm
        rw [ih, if_neg hk]
        simp [lookupKey, h2, hk]
    · simp only [removeF, if_neg h0, lookupKey]
      by_cases hk : k0 = k'
      · subst hk
        simp [lookupKey, h0]
      · simp [lookupKey, hk, ih]

theorem getD_wipe (d : Dict) (k k' : String) (dflt : JVal)
    (hset : lookupKey d k = some (emptyVal k))
    (hcase : k' ≠ k ∨ emptyVal k = dflt) :
    pyGetD d k' dflt = pyGetD (removeF d k) k' dflt := by
  by_cases he : k' = k
  · subst he
    rcases hcase with h | h
    · exact absurd rfl h
    · unfold pyGetD
      rw [hset, lookup_removeF, if_pos rfl, h]
      rfl
  · unfold pyGetD
    rw [lookup_removeF, if_neg he]

theorem getTruthy_wipe (d : Dict) (k : String)
    (hset : lookupKey d k = some (emptyVal k)) :
    ∀ k', getTruthy d k' = getTruthy (removeF d k) k' := by
  intro k'
  by_cases he : k' = k
  · subst he
    simp [getTruthy, hset, lookup_removeF, emptyVal_not_truthy]
  · simp [getTruthy, lookup_removeF, he]

theorem basicLines_congr (d1 d2 : Dict)
    (hTi : pyGetD d1 "title" (JVal.str "Untitled") = pyGetD d2 "title" (JVal.str "Untitled"))
    (hDa : pyGetD d1 "date" (JVal.str "No date") = pyGetD d2 "date" (JVal.str "No date")) :
    ∀ key it, basicLines d1 key it = basicLines d2 key it := by
  intro key it
  unfold basicLines
  rw [hTi, hDa]

theorem pubLines_congr (d1 d2 : Dict)
    (h : getTruthy d1 "publicationTitle" = getTruthy d2 "publicationTitle") :
    pubLines d1 = pubLines d2 := by
  unfold pubLines
  rw [h]

theorem volLines_congr (d1 d2 : Dict)
    (hv : getTruthy d1 "volume" = getTruthy d2 "volume")
    (hi : getTruthy d1 "issue" = getTruthy d2 "issue")
    (hp : getTruthy d1 "pages" = getTruthy d2 "pages") :
    volLines d1 = volLines d2 := by
  rw [volLines_spec, volLines_spec, hv, hi, hp]

theorem absLines_congr (d1 d2 : Dict)
    (h : getTruthy d1 "abstractNote" = getTruthy d2 "abstractNote") :
    absLines d1 = absLines d2 := by
  unfold absLines
  rw [h]

theorem identLines_congr (d1 d2 : Dict)
    (h1 : getTruthy d1 "url" = getTruthy d2 "url")
    (h2 : getTruthy d1 "DOI" = getTruthy d2 "DOI")
    (h3 : getTruthy d1 "ISBN" = getTruthy d2 "ISBN")
    (h4 : getTruthy d1 "ISSN" = getTruthy d2 "ISSN") :
    identLines d1 = identLines d2 := by
  unfold identLines
  rw [h1, h2, h3, h4]

theorem tagBlock_congr (d1 d2 : Dict)
    (h : getTruthy d1 "tags" = getTruthy d2 "tags") :
    tagBlock d1 = tagBlock d2 := by
  unfold tagBlock
  rw [h]

theorem searchTagBlock_congr (d1 d2 : Dict)
    (h : getTruthy d1 "tags" = getTruthy d2 "tags") :
    searchTagBlock d1 = searchTagBlock d2 := by
  unfold searchTagBlock
  rw [h]

theorem creatorBlock_congr (d1 d2 : Dict)
    (h : pyGetD d1 "creators" (JVal.arr []) = pyGetD d2 "creators" (JVal.arr [])) :
    creatorBlock d1 = creatorBlock d2 := by
  unfold creatorBlock
  rw [h]

theorem sourceLines_congr (d1 d2 : Dict)
    (h1 : getTruthy d1 "publicationTitle" = getTruthy d2 "publicationTitle")
    (h2 : getTruthy d1 "bookTitle" = getTruthy d2 "bookTitle")
    (h3 : getTruthy d1 "publisher" = getTruthy d2 "publisher") :
    sourceLines d1 = sourceLines d2 := by
  unfold sourceLines
  rw [h1, h2, h3]

theorem searchAbsLines_congr (d1 d2 : Dict)
    (h : pyGetD d1 "abstractNote" (JVal.str "") = pyGetD d2 "abstractNote" (JVal.str "")) :
    searchAbsLines d1 = searchAbsLines d2 := by
  unfold searchAbsLines
  rw [h]

theorem noteLines_congr (d1 d2 : Dict)
    (hNo : pyGetD d1 "note" (JVal.str "") = pyGetD d2 "note" (JVal.str ""))
    (hPa : getTruthy d1 "parentItem" = getTruthy d2 "parentItem")
    (hDm : getTruthy d1 "dateModified" = getTruthy d2 "dateModified")
    (hTg : getTruthy d1 "tags" = getTruthy d2 "tags") :
    ∀ key, noteLines key d1 = noteLines key d2 := by
  intro key
  unfold noteLines
  rw [hNo, hPa, hDm, tagBlock_congr d1 d2 hTg]

theorem search_note_entry_congr (d1 d2 : Dict)
    (hNo : pyGetD d1 "note" (JVal.str "") = pyGetD d2 "note" (JVal.str ""))
    (hPa : getTruthy d1 "parentItem" = getTruthy d2 "parentItem")
    (hTg : getTruthy d1 "tags" = getTruthy d2 "tags") :
    ∀ i key, search_note_entry i key d1 = search_note_entry i key d2 := by
  intro i key
  unfold search_note_entry
  rw [hNo, hPa, searchTagBlock_congr d1 d2 hTg]

theorem search_regular_entry_congr (d1 d2 : Dict)
    (hTi : pyGetD d1 "title" (JVal.str "Untitled") = pyGetD d2 "title" (JVal.str "Untitled"))
    (hDa2 : pyGetD d1 "date" (JVal.str "") = pyGetD d2 "date" (JVal.str ""))
    (hCr : pyGetD d1 "creators" (JVal.arr []) = pyGetD d2 "creators" (JVal.arr []))
    (hAb : pyGetD d1 "abstractNote" (JVal.str "") = pyGetD d2 "abstractNote" (JVal.str ""))
    (h1 : getTruthy d1 "publicationTitle" = getTruthy d2 "publicationTitle")
    (h2 : getTruthy d1 "bookTitle" = getTruthy d2 "bookTitle")
    (h3 : getTruthy d1 "publisher" = getTruthy d2 "publisher")
    (hTg : getTruthy d1 "tags" = getTruthy d2 "tags") :
    ∀ i key it, search_regular_entry i key it d1 = search_regular_entry i key it d2 := by
  intro i key it
  unfold search_regular_entry
  rw [hTi, hDa2, hCr, searchAbsLines_congr d1 d2 hAb, sourceLines_congr d1 d2 h1 h2 h3,
    searchTagBlock_congr d1 d2 hTg]

theorem renderers_data_congr (d1 d2 : Dict)
    (h1 : ∀ k, getTruthy d1 k = getTruthy d2 k)
    (hIT : pyGetD d1 "itemType" (JVal.str "unknown") = pyGetD d2 "itemType" (JVal.str "unknown"))
    (hTi : pyGetD d1 "title" (JVal.str "Untitled") = pyGetD d2 "title" (JVal.str "Untitled"))
    (hDa : pyGetD d1 "date" (JVal.str "No date") = pyGetD d2 "date" (JVal.str "No date"))
    (hDa2 : pyGetD d1 "date" (JVal.str "") = pyGetD d2 "date" (JVal.str ""))
    (hNo : pyGetD d1 "note" (JVal.str "") = pyGetD d2 "note" (JVal.str ""))
    (hCr : pyGetD d1 "creators" (JVal.arr []) = pyGetD d2 "creators" (JVal.arr []))
    (hAb : pyGetD d1 "abstractNote" (JVal.str "") = pyGetD d2 "abstractNote" (JVal.str "")) :
    (∀ key meta, format_item_lines (mkItem key d1 meta) = format_item_lines (mkItem key d2 meta)) ∧
    (∀ i key meta, search_entry i (mkItem key d1 meta) = search_entry i (mkItem key d2 meta)) := by
  have hch : ∀ (key meta : JVal),
      childLines [("key", key), ("data", JVal.obj d1), ("meta", meta)]
        = childLines [("key", key), ("data", JVal.obj d2), ("meta", meta)] := by
    intro key meta
    unfold childLines
    have hmg : pyGetD [("key", key), ("data", JVal.obj d1), ("meta", meta)] "meta" (JVal.obj [])
        = pyGetD [("key", key), ("data", JVal.obj d2), ("meta", meta)] "meta" (JVal.obj []) := by
      simp [pyGetD, lookupKey]
    rw [hmg]
  constructor
  · intro key meta
    have hidx1 : pyIndex (mkItem key d1 meta) "data" = Except.ok (JVal.obj d1) := by
      simp [mkItem, pyIndex, lookupKey]
    have hidx2 : pyIndex (mkItem key d2 meta) "data" = Except.ok (JVal.obj d2) := by
      simp [mkItem, pyIndex, lookupKey]
    have hk1 : pyIndex (mkItem key d1 meta) "key" = Except.ok key := by
      simp [mkItem, pyIndex, lookupKey]
    have hk2 : pyIndex (mkItem key d2 meta) "key" = Except.ok key := by
      simp [mkItem, pyIndex, lookupKey]
    unfold format_item_lines
    simp only [mkItem] at hidx1 hidx2 hk1 hk2 ⊢
    simp only [hidx1, hidx2, hk1, hk2, asObj, Bind.bind, Except.bind]
    rw [hIT]
    by_cases hn : pyGetD d2 "itemType" (JVal.str "unknown") = JVal.str "note"
    · simp only [if_pos hn]
      exact noteLines_congr d1 d2 hNo (h1 "parentItem") (h1 "dateModified") (h1 "tags") key
    · simp only [if_neg hn]
      rw [creatorBlock_congr d1 d2 hCr, tagBlock_congr d1 d2 (h1 "tags"), hch key meta,
        basicLines_congr d1 d2 hTi hDa, pubLines_congr d1 d2 (h1 "publicationTitle"),
        volLines_congr d1 d2 (h1 "volume") (h1 "issue") (h1 "pages"),
        absLines_congr d1 d2 (h1 "abstractNote"),
        identLines_congr d1 d2 (h1 "url") (h1 "DOI") (h1 "ISBN") (h1 "ISSN")]
  · intro i key meta
    have hidx1 : pyIndex (mkItem key d1 meta) "data" = Except.ok (JVal.obj d1) := by
      simp [mkItem, pyIndex, lookupKey]
    have hidx2 : pyIndex (mkItem key d2 meta) "data" = Except.ok (JVal.obj d2) := by
      simp [mkItem, pyIndex, lookupKey]
    have hg1 : pyGetD [("key", key), ("data", JVal.obj d1), ("meta", meta)] "key" (JVal.str "")
        = key := by simp [pyGetD, lookupKey]
    have hg2 : pyGetD [("key", key), ("data", JVal.obj d2), ("meta", meta)] "key" (JVal.str "")
        = key := by simp [pyGetD, lookupKey]
    unfold search_entry
    simp only [mkItem] at hidx1 hidx2 ⊢
    simp only [hidx1, hidx2, asObj, Bind.bind, Except.bind, hg1, hg2]
    rw [hIT]
    by_cases hn : pyGetD d2 "itemType" (JVal.str "unknown") = JVal.str "note"
    · simp only [if_pos hn]
      rw [search_note_entry_congr d1 d2 hNo (h1 "parentItem") (h1 "tags") i key]
    · simp only [if_neg hn]
      rw [search_regular_entry_congr d1 d2 hTi hDa2 hCr hAb (h1 "publicationTitle")
        (h1 "bookTitle") (h1 "publisher") (h1 "tags") i key]

/-- C10: for every record, an empty string (empty list for tags) in any
of the truthiness-gated optional fields renders identically, in both
renderers, to the field being absent; this does not extend to title and
date in `format_item`, whose defaults apply only when the key is absent
— a present-but-empty date renders `Date: ` rather than
`Date: No date`. -/
theorem claim_C10 :
    (∀ k, k ∈ gatedFields →
      ∀ (key : JVal) (d : Dict) (meta : JVal) (i : Nat),
        lookupKey d k = some (emptyVal k) →
        format_item (mkItem key d meta) = format_item (mkItem key (removeF d k) meta) ∧
        search_entry i (mkItem key d meta) = search_entry i (mkItem key (removeF d k) meta)) ∧
    format_item (mkItem (JVal.str "K") [("date", JVal.str "")] (JVal.obj []))
      = Except.ok "## Untitled\nItem Key: `K`\nType: unknown\nDate: " ∧
    format_item (mkItem (JVal.str "K") [] (JVal.obj []))
      = Except.ok "## Untitled\nItem Key: `K`\nType: unknown\nDate: No date" := by
  refine ⟨?_, rfl, rfl⟩
  intro k hk key d meta i hset
  have h1 := getTruthy_wipe d k hset
  simp only [gatedFields, List.mem_cons, List.not_mem_nil, or_false] at hk
  rcases hk with rfl | rfl | rfl | rfl | rfl | rfl | rfl | rfl | rfl | rfl | rfl | rfl | rfl <;>
    · obtain ⟨hf, hs⟩ := renderers_data_congr d (removeF d _) h1
        (by first
          | exact getD_wipe d _ _ _ hset (Or.inl (by decide))
          | exact getD_wipe d _ _ _ hset (Or.inr (by decide)))
        (by first
          | exact getD_wipe d _ _ _ hset (Or.inl (by decide))
          | exact getD_wipe d _ _ _ hset (Or.inr (by decide)))
        (by first
          | exact getD_wipe d _ _ _ hset (Or.inl (by decide))
          | exact getD_wipe d _ _ _ hset (Or.inr (by decide)))
        (by first
          | exact getD_wipe d _ _ _ hset (Or.inl (by decide))
          | exact getD_wipe d _ _ _ hset (Or.inr (by decide)))
        (by first
          | exact getD_wipe d _ _ _ hset (Or.inl (by decide))
          | exact getD_wipe d _ _ _ hset (Or.inr (by decide)))
        (by first
          | exact getD_wipe d _ _ _ hset (Or.inl (by decide))
          | exact getD_wipe d _ _ _ hset (Or.inr (by decide)))
        (by first
          | exact getD_wipe d _ _ _ hset (Or.inl (by decide))
          | exact getD_wipe d _ _ _ hset (Or.inr (by decide)))
      refine ⟨?_, hs i key meta⟩
      unfold format_item
      rw [hf key meta]

/-- C10 witness: an empty `url` field renders identically to no `url`
field in both renderers. -/
theorem claim_C10_witness :
    ("url" ∈ gatedFields) ∧
    format_item (mkItem (JVal.str "K") [("title", JVal.str "T"), ("url", JVal.str "")]
        (JVal.obj []))
      = format_item (mkItem (JVal.str "K")
          (removeF [("title", JVal.str "T"), ("url", JVal.str "")] "url") (JVal.obj [])) ∧
    search_entry 0 (mkItem (JVal.str "K") [("title", JVal.str "T"), ("url", JVal.str "")]
        (JVal.obj []))
      = search_entry 0 (mkItem (JVal.str "K")
          (removeF [("title", JVal.str "T"), ("url", JVal.str "")] "url") (JVal.obj [])) :=
  ⟨by decide,
   (claim_C10.1 "url" (by decide) (JVal.str "K") [("title", JVal.str "T"), ("url", JVal.str "")]
     (JVal.obj []) 0 (by decide)).1,
   (claim_C10.1 "url" (by decide) (JVal.str "K") [("title", JVal.str "T"), ("url", JVal.str "")]
     (JVal.obj []) 0 (by decide)).2⟩
